import Mathlib

/-!
# Verification of the ghost-buses schedule/realtime aggregation pipeline

This file gives a shallow embedding, as Lean definitions over lists, of the
data pipeline of the chn-ghost-buses repository and proves properties of it:

* the GTFS feed loader (`GTFSFeed.__init__` in `static_gtfs_analysis.ipynb`),
  here `gtfsFeedInit`;
* the stop-time hour extraction (`get_hour`, `format_dates_hours`);
* the calendar resolution and scheduled-trip summary (`make_trip_summary`,
  `summarize_and_save`), here `serviceHappened`, `makeTripSummary`,
  `scheduledTripCount`;
* the realtime daily aggregation (`rt_daily_aggregations.ipynb`), here
  `flattenVehicles`, `processDay`;
* the schedule-vs-realtime comparison (day-type classification, inner join,
  per-period and combined ratio summaries), here `classifyDayTypes`,
  `compareDailyByRte`, `compareByDayType`, `overallSummary`.

pandas DataFrames are embedded as lists of row structures; merges, melts and
groupbys are spelled out as the corresponding list operations.  Dates are
represented by their civil day number (`daysFromCivil`); machine floats in
the ratio columns are represented by exact rationals extended with the IEEE
infinity and NaN produced by division by zero (`PFloat`).
-/

set_option maxHeartbeats 1000000

/-! ## Generic list lemmas used by the pipeline proofs -/

theorem countP_eq_sum_map {α : Type} (p : α → Bool) (l : List α) :
    l.countP p = (l.map fun a => if p a then 1 else 0).sum := by
  induction l with
  | nil => rfl
  | cons a t ih =>
    rw [List.countP_cons, List.map_cons, List.sum_cons, ih]
    by_cases h : p a = true <;> simp [h, Nat.add_comm]

theorem countP_map_eq {α β : Type} (p : β → Bool) (f : α → β) (l : List α) :
    (l.map f).countP p = l.countP fun a => p (f a) := by
  induction l with
  | nil => rfl
  | cons a t ih => simp [List.countP_cons, ih]

theorem countP_imp_le {α : Type} (p q : α → Bool) (l : List α)
    (h : ∀ a ∈ l, p a = true → q a = true) : l.countP p ≤ l.countP q := by
  induction l with
  | nil => exact Nat.le_refl 0
  | cons a t ih =>
    rw [List.countP_cons, List.countP_cons]
    by_cases hp : p a = true
    · have hq := h a (List.mem_cons_self a t) hp
      simp only [hp, hq, if_true]
      exact Nat.add_le_add (ih fun b hb => h b (List.mem_cons_of_mem a hb)) (Nat.le_refl 1)
    · simp only [hp, if_false]
      exact Nat.le_trans (Nat.add_le_add_left (Nat.zero_le _) _)
        (Nat.add_le_add (ih fun b hb => h b (List.mem_cons_of_mem a hb)) (Nat.zero_le _))

theorem sum_map_le_single {α : Type} [DecidableEq α] (l : List α) (f : α → Nat) (a : α)
    (hl : l.Nodup) (h0 : ∀ b ∈ l, b ≠ a → f b = 0) : (l.map f).sum ≤ f a := by
  induction l with
  | nil => exact Nat.zero_le _
  | cons b t ih =>
    rw [List.map_cons, List.sum_cons]
    rcases List.nodup_cons.mp hl with ⟨hbt, hnd⟩
    by_cases hba : b = a
    · subst hba
      have : ∀ c ∈ t, f c = 0 := by
        intro c hc
        by_cases hcb : c = b
        · exact absurd (hcb ▸ hc) hbt
        · exact h0 c (List.mem_cons_of_mem b hc) hcb
      have hz : (t.map f).sum = 0 :=
        List.sum_eq_zero fun x hx => by
          rcases List.mem_map.mp hx with ⟨c, hc, rfl⟩
          exact this c hc
      omega
    · have hb0 : f b = 0 := h0 b (List.mem_cons_self b t) hba
      have := ih hnd fun c hc hca => h0 c (List.mem_cons_of_mem b hc) hca
      omega

theorem length_le_one_of_const_keys {α β : Type} [DecidableEq β] (l : List α) (key : α → β)
    (b : β) (hnd : (l.map key).Nodup) (hall : ∀ a ∈ l, key a = b) : l.length ≤ 1 := by
  match l with
  | [] => exact Nat.zero_le 1
  | [a] => exact Nat.le_refl 1
  | a₁ :: a₂ :: t =>
    exfalso
    rw [List.map_cons, List.map_cons, List.nodup_cons] at hnd
    exact hnd.1 (by
      rw [hall a₁ (by simp), hall a₂ (by simp)]
      exact List.mem_cons_self _ _)

theorem foldl_append_eq_flatten {α : Type} (ps : List (List α)) (acc : List α) :
    ps.foldl (fun a p => a ++ p) acc = acc ++ ps.flatten := by
  induction ps generalizing acc with
  | nil => simp
  | cons p t ih => simp [ih, List.append_assoc]

theorem sum_filter_map_flatten {α : Type} (ps : List (List α)) (q : α → Bool) (f : α → Nat) :
    ((ps.flatten.filter q).map f).sum = (ps.map fun p => ((p.filter q).map f).sum).sum := by
  induction ps with
  | nil => rfl
  | cons p t ih => simp [List.filter_append, ih]; rfl

/-! ## Calendar dates

Dates are embedded as civil day numbers: `daysFromCivil y m d` counts days
from 0000-03-01 in the proleptic Gregorian calendar (the standard
era/year-of-era day-count algorithm).  `pendulum.from_format` /
`pd.to_datetime` parsing of date strings is treated as given, so date-valued
columns carry day numbers directly. -/

def daysFromCivil (y m d : Nat) : Nat :=
  let yAdj := if m ≤ 2 then y - 1 else y
  let era := yAdj / 400
  let yoe := yAdj % 400
  let mp := (m + 9) % 12
  let doy := (153 * mp + 2) / 5 + d - 1
  let doe := yoe * 365 + yoe / 4 - yoe / 100 + doy
  era * 146097 + doe

/-- `Series.dt.dayofweek` as pandas computes it: Monday = 0 … Sunday = 6.
The offset 2 calibrates `daysFromCivil` (0000-03-01 was a Wednesday). -/
def dayofweek (n : Nat) : Nat := (n + 2) % 7

/-! ## Stop-time strings and `get_hour`

`get_hour` mirrors the notebook function

```python
def get_hour(s):
    parts = s.split(':')
    assert len(parts)==3
    hour = int(parts[0])
    if hour >= 24:
        hour -= 24
    return hour
```

A failing `assert` or a `ValueError` from `int()` is modelled by `none`.
`int()` is modelled for the strings appearing in GTFS data: a nonempty
all-digit string. -/

def splitOnColon : List Char → List (List Char)
  | [] => [[]]
  | c :: rest =>
    let r := splitOnColon rest
    if c = ':' then [] :: r
    else
      match r with
      | [] => [[c]]
      | h :: t => (c :: h) :: t

def parseDigits (cs : List Char) : Option Nat :=
  if cs.isEmpty then none
  else if cs.all Char.isDigit then
    some (cs.foldl (fun n c => 10 * n + (c.toNat - 48)) 0)
  else none

def get_hourChars (s : List Char) : Option Nat :=
  match splitOnColon s with
  | [p0, _, _] => (parseDigits p0).map fun hour => if 24 ≤ hour then hour - 24 else hour
  | _ => none

def get_hour (s : String) : Option Nat := get_hourChars s.data

/-! ## The GTFS feed loader (`GTFSFeed.__init__`)

A zip archive is embedded as its member names paired with the table
`pd.read_csv` would produce for that member (CSV parsing itself is treated
as given; table contents are irrelevant to the loader's control flow).

The constructor reads `stops.txt`, `stop_times.txt`, `routes.txt`,
`trips.txt` inside one `try` block: a missing member raises `KeyError`,
which skips the remaining reads of the block and is then caught (printing a
message), so construction continues.  The optional members
`calendar.txt` / `calendar_dates.txt` / `shapes.txt` are each read only when
present in `namelist()`; when absent the loader prints a message and leaves
the attribute unset, which we embed as `none`. -/

abbrev CsvTable := List (List String)

structure ZipArchive where
  members : List (String × CsvTable)
deriving DecidableEq

def ZipArchive.namelist (z : ZipArchive) : List String := z.members.map (·.1)

def ZipArchive.readTable (z : ZipArchive) (name : String) : Option CsvTable :=
  (z.members.find? fun m => m.1 == name).map (·.2)

structure GTFSFeedTables where
  stops : Option CsvTable
  stop_times : Option CsvTable
  routes : Option CsvTable
  trips : Option CsvTable
  calendar : Option CsvTable
  calendar_dates : Option CsvTable
  shapes : Option CsvTable
deriving DecidableEq

def gtfsFeedInit (z : ZipArchive) : GTFSFeedTables :=
  let stops := z.readTable "stops.txt"
  let stop_times := if stops.isSome then z.readTable "stop_times.txt" else none
  let routes := if stops.isSome && stop_times.isSome then z.readTable "routes.txt" else none
  let trips := if stops.isSome && stop_times.isSome && routes.isSome then
    z.readTable "trips.txt" else none
  let calendar := if "calendar.txt" ∈ z.namelist then z.readTable "calendar.txt" else none
  let calendar_dates :=
    if "calendar_dates.txt" ∈ z.namelist then z.readTable "calendar_dates.txt" else none
  let shapes := if "shapes.txt" ∈ z.namelist then z.readTable "shapes.txt" else none
  ⟨stops, stop_times, routes, trips, calendar, calendar_dates, shapes⟩

/-- The loader as the specification describes it: identical to
`gtfsFeedInit` except that a missing `calendar.txt` / `calendar_dates.txt`
is replaced by an empty table.  Used to compare the code against the
specified behaviour. -/
def gtfsFeedInitSpecModel (z : ZipArchive) : GTFSFeedTables :=
  let base := gtfsFeedInit z
  { base with
    calendar := some (base.calendar.getD [])
    calendar_dates := some (base.calendar_dates.getD []) }

/-! ## `format_dates_hours`, stop-times half

In the notebook, `format_dates_hours` parses the calendar date strings with
pendulum (treated as given here: `CalendarRow` / `CalendarDateRow` below
carry day numbers) and then applies `get_hour` to every `arrival_time` and
`departure_time` of `stop_times`.  A row whose time string fails the
`assert` or `int()` raises, and an exception anywhere in the `.apply`
aborts the whole call, which the `Option` propagation below reproduces. -/

structure RawStopTimeRow where
  trip_id : String
  arrival_time : String
  departure_time : String
deriving DecidableEq

structure StopTimeRow where
  trip_id : String
  arrival_hour : Nat
  departure_hour : Nat
deriving DecidableEq

def formatStopTimes : List RawStopTimeRow → Option (List StopTimeRow)
  | [] => some []
  | r :: rest =>
    match get_hour r.arrival_time, get_hour r.departure_time with
    | some ah, some dh => (formatStopTimes rest).map fun l => ⟨r.trip_id, ah, dh⟩ :: l
    | _, _ => none

/-! ## Calendar resolution (`make_trip_summary`)

The notebook materialises every day between the calendar's smallest
`start_date` and largest `end_date`, cross-joins it with `calendar.txt`,
melts the seven weekday-flag columns into rows (mapping the column names to
pandas day numbers), keeps rows whose day of week matches the date and
whose date lies in the row's validity window, outer-merges the result with
`calendar_dates.txt` on (date, service), computes the `service_happened`
flag, fills the date of exception-only rows, and keeps the rows where
service happened. -/

structure CalendarRow where
  service_id : String
  monday : String
  tuesday : String
  wednesday : String
  thursday : String
  friday : String
  saturday : String
  sunday : String
  start_date : Nat
  end_date : Nat
deriving DecidableEq

structure CalendarDateRow where
  service_id : String
  date : Nat
  exception_type : String
deriving DecidableEq

structure TripRow where
  route_id : String
  service_id : String
  trip_id : String
  direction : String
deriving DecidableEq

/-- The melted weekday columns of one calendar row, with the column names
already mapped to pandas day numbers (monday ↦ 0, …, sunday ↦ 6). -/
def dayFlags (c : CalendarRow) : List (Nat × String) :=
  [(0, c.monday), (1, c.tuesday), (2, c.wednesday), (3, c.thursday),
   (4, c.friday), (5, c.saturday), (6, c.sunday)]

/-- `pd.date_range(min(start_date_dt), max(end_date_dt))`. -/
def calendarDateRange (cal : List CalendarRow) : List Nat :=
  match cal with
  | [] => []
  | c :: cs =>
    let lo := cs.foldl (fun a r => Nat.min a r.start_date) c.start_date
    let hi := cs.foldl (fun a r => Nat.max a r.end_date) c.end_date
    List.range' lo (hi + 1 - lo)

/-- One melted `actual_service` row before the boolean filter. -/
structure PatternRow where
  raw_date : Nat
  service_id : String
  start_date : Nat
  end_date : Nat
  cal_daynum : Nat
  cal_val : String
deriving DecidableEq

/-- Cross join of the date index with `calendar`, melted long. -/
def crossMelt (cal : List CalendarRow) : List PatternRow :=
  (calendarDateRange cal).flatMap fun d =>
    cal.flatMap fun c =>
      (dayFlags c).map fun wv =>
        ⟨d, c.service_id, c.start_date, c.end_date, wv.1, wv.2⟩

/-- `actual_service` after the day-of-week / validity-window filter. -/
def patternService (cal : List CalendarRow) : List PatternRow :=
  (crossMelt cal).filter fun r =>
    dayofweek r.raw_date == r.cal_daynum &&
    decide (r.start_date ≤ r.raw_date) && decide (r.raw_date ≤ r.end_date)

/-- A row of the outer merge of `actual_service` with `calendar_dates`:
left-only rows have `exception_type = none` and `date_dt = none`,
right-only rows have `raw_date = none` and `cal_val = none`. -/
structure MergedRow where
  raw_date : Option Nat
  service_id : String
  cal_val : Option String
  exception_type : Option String
  date_dt : Option Nat
deriving DecidableEq

def cdMatches (cds : List CalendarDateRow) (d : Nat) (s : String) : List CalendarDateRow :=
  cds.filter fun cd => cd.date == d && cd.service_id == s

/-- `actual_service.merge(calendar_dates, how='outer',
left_on=['raw_date','service_id'], right_on=['date_dt','service_id'])`. -/
def outerMergeService (pat : List PatternRow) (cds : List CalendarDateRow) : List MergedRow :=
  (pat.flatMap fun p =>
    let ms := cdMatches cds p.raw_date p.service_id
    if ms.isEmpty then [⟨some p.raw_date, p.service_id, some p.cal_val, none, none⟩]
    else ms.map fun cd =>
      ⟨some p.raw_date, p.service_id, some p.cal_val, some cd.exception_type, some cd.date⟩) ++
  ((cds.filter fun cd =>
      !(pat.any fun p => p.raw_date == cd.date && p.service_id == cd.service_id)).map fun cd =>
    ⟨none, cd.service_id, none, some cd.exception_type, some cd.date⟩)

/-- The `service_happened` boolean column:
`(cal_val == '1') & exception_type.isnull() | (exception_type == '1')`. -/
def serviceHappenedFlag (r : MergedRow) : Bool :=
  (r.cal_val == some "1" && r.exception_type == none) || (r.exception_type == some "1")

/-- `actual_service['raw_date'].fillna(actual_service['date_dt'])`. -/
def fillRawDate (r : MergedRow) : MergedRow :=
  { r with raw_date := r.raw_date.orElse fun _ => r.date_dt }

/-- `service_happened = actual_service[actual_service.service_happened]`
(the flag does not read `raw_date`, so applying the fill first is
equivalent to the notebook's column order). -/
def serviceHappened (cal : List CalendarRow) (cds : List CalendarDateRow) : List MergedRow :=
  ((outerMergeService (patternService cal) cds).map fillRawDate).filter serviceHappenedFlag

/-- Service `s` is resolved active on date `d`: some `service_happened` row
carries that (date, service) pair. -/
def serviceRunsOn (cal : List CalendarRow) (cds : List CalendarDateRow)
    (d : Nat) (s : String) : Bool :=
  (serviceHappened cal cds).any fun r => r.raw_date == some d && r.service_id == s

/-! ## Scheduled-trip summary -/

structure TripDateRow where
  trip : TripRow
  raw_date : Option Nat
deriving DecidableEq

/-- `trips_happened = data.trips.merge(service_happened, how='left',
on='service_id')`. -/
def tripsHappened (trips : List TripRow) (sh : List MergedRow) : List TripDateRow :=
  trips.flatMap fun t =>
    let ms := sh.filter fun r => r.service_id == t.service_id
    if ms.isEmpty then [⟨t, none⟩]
    else ms.map fun r => ⟨t, r.raw_date⟩

/-- `trip_stop_hours = data.stop_times[['trip_id','arrival_hour']]
.drop_duplicates()` (which representative survives is irrelevant below;
only the set of pairs and their distinctness matter). -/
def tripStopHours (st : List StopTimeRow) : List (String × Nat) :=
  (st.map fun r => (r.trip_id, r.arrival_hour)).dedup

structure TripSummaryRow where
  trip : TripRow
  raw_date : Option Nat
  arrival_hour : Option Nat
deriving DecidableEq

/-- `trip_summary = trips_happened.merge(trip_stop_hours, how='left',
on='trip_id')`. -/
def makeTripSummary (cal : List CalendarRow) (cds : List CalendarDateRow)
    (trips : List TripRow) (st : List StopTimeRow) : List TripSummaryRow :=
  (tripsHappened trips (serviceHappened cal cds)).flatMap fun td =>
    let ms := (tripStopHours st).filter fun p => p.1 == td.trip.trip_id
    if ms.isEmpty then [⟨td.trip, td.raw_date, none⟩]
    else ms.map fun p => ⟨td.trip, td.raw_date, some p.2⟩

theorem countP_pair_eq_of_nodup (l : List (String × Nat)) (hl : l.Nodup)
    (tid : String) (hr : Nat) :
    (l.countP fun p => p.1 == tid && p.2 == hr) = if (tid, hr) ∈ l then 1 else 0 := by
  induction l with
  | nil => simp
  | cons b t ih =>
    rw [List.countP_cons]
    rcases List.nodup_cons.mp hl with ⟨hbt, hnd⟩
    by_cases hba : b = (tid, hr)
    · subst hba
      have hz : (t.countP fun p => p.1 == tid && p.2 == hr) = 0 := by
        refine List.countP_eq_zero.mpr ?_
        intro p hp hc
        simp only [Bool.and_eq_true, beq_iff_eq] at hc
        exact hbt (by rwa [show p = (tid, hr) from Prod.ext hc.1 hc.2] at hp)
      simp [hz]
    · have hb : ((b.1 == tid && b.2 == hr)) = false := by
        refine Bool.eq_false_iff.mpr fun hc => ?_
        simp only [Bool.and_eq_true, beq_iff_eq] at hc
        exact hba (Prod.ext hc.1 hc.2)
      rw [ih hnd, hb]
      by_cases hm : (tid, hr) ∈ t
      · rw [if_pos hm, if_pos (List.mem_cons_of_mem b hm)]
        simp
      · have hnc : (tid, hr) ∉ b :: t := by
          intro hmem
          rcases List.mem_cons.mp hmem with he | hm2
          · exact hba he.symm
          · exact hm hm2
        rw [if_neg hm, if_neg hnc]
        simp

/-- The (date, route, hour) cell of
`trip_summary.groupby(['raw_date','route_id','arrival_hour'])['trip_id'].count()`
(pandas drops null group keys, hence the `some` comparisons). -/
def scheduledTripCount (cal : List CalendarRow) (cds : List CalendarDateRow)
    (trips : List TripRow) (st : List StopTimeRow)
    (d : Nat) (route : String) (h : Nat) : Nat :=
  (makeTripSummary cal cds trips st).countP fun r =>
    r.raw_date == some d && r.trip.route_id == route && r.arrival_hour == some h

/-! ## Realtime daily aggregation (`rt_daily_aggregations.ipynb`)

A day's raw input is a list of scrape files, each holding chunks whose
`bustime-response` carries an optional `vehicle` list and an optional
`error` list.  The loop flattens all vehicle rows (tagging each with its
scrape file), and only `if len(data) > 0` parses timestamps, derives
`data_hour` / `data_date` and writes the hourly summary; a day with no
vehicle rows writes no summary at all, embedded as `none`. -/

structure VehicleRow where
  tmstmp : String
  vid : String
  rt : String
  des : String
  tatripid : String
  tablockid : String
deriving DecidableEq

structure ErrRow where
  rt : String
  msg : String
deriving DecidableEq

structure BustimeResponse where
  vehicle : Option (List VehicleRow)
  error : Option (List ErrRow)
deriving DecidableEq

structure ScrapeFile where
  name : String
  chunks : List BustimeResponse
deriving DecidableEq

structure TaggedVehicleRow where
  row : VehicleRow
  scrape_file : String
deriving DecidableEq

def flattenVehicles (files : List ScrapeFile) : List TaggedVehicleRow :=
  files.flatMap fun f =>
    (f.chunks.flatMap fun ch => ch.vehicle.getD []).map fun v => ⟨v, f.name⟩

def flattenErrors (files : List ScrapeFile) : List (ErrRow × String) :=
  files.flatMap fun f =>
    (f.chunks.flatMap fun ch => ch.error.getD []).map fun e => (e, f.name)

/-- `pd.to_datetime(tmstmp, format='%Y%m%d %H:%M')`, reduced to the two
derived columns the summary uses: `data_date` (as the yyyymmdd number) and
`data_hour`.  A string failing the format raises, modelled by `none`. -/
def parseTmstmp (s : String) : Option (Nat × Nat) :=
  match s.data with
  | [y1, y2, y3, y4, m1, m2, d1, d2, sp, h1, h2, co, n1, n2] =>
    if sp = ' ' ∧ co = ':' ∧ [y1, y2, y3, y4, m1, m2, d1, d2, h1, h2, n1, n2].all Char.isDigit then
      some (([y1, y2, y3, y4, m1, m2, d1, d2].foldl (fun n c => 10 * n + (c.toNat - 48)) 0),
            ([h1, h2].foldl (fun n c => 10 * n + (c.toNat - 48)) 0))
    else none
  | _ => none

structure HourlyRow where
  data_date : Nat
  data_hour : Nat
  rt : String
  des : String
  vh_count : Nat
  trip_count : Nat
  block_count : Nat
deriving DecidableEq

/-- `data.groupby(['data_date','data_hour','rt','des']).agg({'vid': set,
'tatripid': set, 'tablockid': set})` followed by the three `len` columns. -/
def rtHourlySummary (parsed : List (TaggedVehicleRow × Nat × Nat)) : List HourlyRow :=
  ((parsed.map fun x => (x.2.1, x.2.2, x.1.row.rt, x.1.row.des)).dedup).map fun k =>
    let grp := parsed.filter fun x => (x.2.1, x.2.2, x.1.row.rt, x.1.row.des) == k
    ⟨k.1, k.2.1, k.2.2.1, k.2.2.2,
      ((grp.map fun x => x.1.row.vid).dedup).length,
      ((grp.map fun x => x.1.row.tatripid).dedup).length,
      ((grp.map fun x => x.1.row.tablockid).dedup).length⟩

/-- One iteration of the daily loop, from the flattened vehicle rows to the
day's hourly-summary file; `none` means no file is written for the day. -/
def processDay (files : List ScrapeFile) : Option (List HourlyRow) :=
  let data := flattenVehicles files
  if 0 < data.length then
    (data.mapM fun r => (parseTmstmp r.row.tmstmp).map fun dh => (r, dh.1, dh.2)).map
      rtHourlySummary
  else none

/-! ## Day-type classification and ratio comparison (per-feed comparison
notebook)

`ratio = trip_count_rt / trip_count_sched` is a float64 division of two
nonnegative integer sums, embedded as an exact rational extended with the
IEEE values pandas produces on division by zero: `x / 0 = +inf` for
`x > 0` and `0 / 0 = NaN`. -/

inductive PFloat where
  | val : ℚ → PFloat
  | posInf : PFloat
  | nan : PFloat
deriving DecidableEq

def pandasDiv (a b : Nat) : PFloat :=
  if b ≠ 0 then .val ((a : ℚ) / b) else if a ≠ 0 then .posInf else .nan

/-- A row of a day's `bus_hourly_summary_v2` file as the comparison
notebook reads it back (`data_date` parsed to a day number, `rt` copied to
`route_id` during reformatting). -/
structure RtRawRow where
  data_date : Nat
  data_hour : Nat
  rt : String
  des : String
  trip_count : Nat
deriving DecidableEq

/-- A row of a version's `schedule_route_daily_hourly_summary` file. -/
structure SchedRawRow where
  date : Nat
  route_id : String
  hour : Nat
  trip_count : Nat
deriving DecidableEq

structure DailyRow where
  date : Nat
  route_id : String
  trip_count : Nat
deriving DecidableEq

/-- `rt.groupby(['date','route_id'])['trip_count'].sum()`. -/
def rtDailyByRte (rows : List RtRawRow) : List DailyRow :=
  ((rows.map fun r => (r.data_date, r.rt)).dedup).map fun k =>
    ⟨k.1, k.2, ((rows.filter fun r => r.data_date == k.1 && r.rt == k.2).map (·.trip_count)).sum⟩

/-- `schedule.groupby(['date','route_id'])['trip_count'].sum()`. -/
def schedDailyByRte (rows : List SchedRawRow) : List DailyRow :=
  ((rows.map fun r => (r.date, r.route_id)).dedup).map fun k =>
    ⟨k.1, k.2,
      ((rows.filter fun r => r.date == k.1 && r.route_id == k.2).map (·.trip_count)).sum⟩

structure CompareDailyRow where
  date : Nat
  route_id : String
  trip_count_rt : Nat
  trip_count_sched : Nat
deriving DecidableEq

/-- `rt_daily_by_rte.merge(sched_daily_by_rte, how='inner',
on=['date','route_id'], suffixes=['_rt','_sched'])`. -/
def compareDailyByRte (rtRows : List RtRawRow) (schedRows : List SchedRawRow) :
    List CompareDailyRow :=
  (rtDailyByRte rtRows).flatMap fun a =>
    ((schedDailyByRte schedRows).filter fun b =>
        b.date == a.date && b.route_id == a.route_id).map fun b =>
      ⟨a.date, a.route_id, a.trip_count, b.trip_count⟩

/-- The `dayofweek → day_type` dictionary `.map`; an unmapped value becomes
NaN (`none`). -/
def dowDayType : Nat → Option String
  | 0 => some "wk"
  | 1 => some "wk"
  | 2 => some "wk"
  | 3 => some "wk"
  | 4 => some "wk"
  | 5 => some "sat"
  | 6 => some "sun"
  | _ => none

structure ClassifiedRow where
  date : Nat
  route_id : String
  trip_count_rt : Nat
  trip_count_sched : Nat
  dow : Nat
  day_type : Option String
deriving DecidableEq

def withDayType (r : CompareDailyRow) : ClassifiedRow :=
  ⟨r.date, r.route_id, r.trip_count_rt, r.trip_count_sched,
    dayofweek r.date, dowDayType (dayofweek r.date)⟩

/-- The hard-coded holiday list
`['2022-05-31', '2022-07-04']` of the comparison notebook. -/
def holidays2022 : List Nat := [daysFromCivil 2022 5 31, daysFromCivil 2022 7 4]

/-- `compare_daily_by_rte.loc[compare_daily_by_rte.date.isin(holidays),
'day_type'] = 'hol'`, applied after the dictionary map. -/
def holidayOverride (hol : List Nat) (r : ClassifiedRow) : ClassifiedRow :=
  if r.date ∈ hol then { r with day_type := some "hol" } else r

def classifyDayTypes (hol : List Nat) (rows : List CompareDailyRow) : List ClassifiedRow :=
  (rows.map withDayType).map (holidayOverride hol)

structure SummaryRow where
  route_id : String
  day_type : String
  trip_count_rt : Nat
  trip_count_sched : Nat
  ratio : PFloat
deriving DecidableEq

/-- `compare_by_day_type = compare_daily_by_rte.groupby(['route_id',
'day_type'])[['trip_count_rt','trip_count_sched']].sum()` followed by the
unguarded `ratio` division (pandas drops null group keys). -/
def compareByDayType (rows : List ClassifiedRow) : List SummaryRow :=
  ((rows.filterMap fun r => r.day_type.map fun dt => (r.route_id, dt)).dedup).map fun k =>
    let grp := rows.filter fun r => r.route_id == k.1 && r.day_type == some k.2
    let rtSum := (grp.map (·.trip_count_rt)).sum
    let schedSum := (grp.map (·.trip_count_sched)).sum
    ⟨k.1, k.2, rtSum, schedSum, pandasDiv rtSum schedSum⟩

/-- The overall multi-version summary: append every period's comparison
file into `combined`, group by (route_id, day_type), re-sum the raw trip
counts and divide the re-derived sums. -/
def overallSummary (periods : List (List SummaryRow)) : List SummaryRow :=
  let combined := periods.foldl (fun acc p => acc ++ p) []
  ((combined.map fun r => (r.route_id, r.day_type)).dedup).map fun k =>
    let grp := combined.filter fun r => r.route_id == k.1 && r.day_type == k.2
    let rtSum := (grp.map (·.trip_count_rt)).sum
    let schedSum := (grp.map (·.trip_count_sched)).sum
    ⟨k.1, k.2, rtSum, schedSum, pandasDiv rtSum schedSum⟩

/-! ## Theorems -/

/-- C5 counterexample: the claim says the hour component is reduced modulo
24 whenever it is 24 or greater, but `get_hour` subtracts 24 exactly once:
on `"48:00:00"` it returns hour 24, while 48 mod 24 = 0. -/
theorem get_hour_mod24_cex :
    get_hour "48:00:00" = some 24 ∧ 48 % 24 = 0 ∧ get_hour "48:00:00" ≠ some (48 % 24) := by
  decide

/-- C5 (amended): for a well-formed `H:MM:SS` arrival string whose hour
field parses to `H`, `get_hour` buckets it to `H - 24` when `H ≥ 24` (a
single subtraction, which coincides with `H % 24` whenever `H < 48`), and
the row is not discarded (the result is `some`). -/
theorem get_hour_single_subtraction (s : String) (p0 p1 p2 : List Char) (H : Nat)
    (hsplit : splitOnColon s.data = [p0, p1, p2]) (hp : parseDigits p0 = some H) :
    get_hour s = some (if 24 ≤ H then H - 24 else H) ∧
    (H < 48 → get_hour s = some (H % 24)) := by
  have hbase : get_hour s = some (if 24 ≤ H then H - 24 else H) := by
    unfold get_hour get_hourChars
    rw [hsplit]
    simp [hp]
  refine ⟨hbase, fun h48 => ?_⟩
  rw [hbase]
  have : (if 24 ≤ H then H - 24 else H) = H % 24 := by
    split <;> omega
  rw [this]

theorem get_hour_single_subtraction_witness :
    (splitOnColon "25:30:00".data = [['2', '5'], ['3', '0'], ['0', '0']] ∧
      parseDigits ['2', '5'] = some 25) ∧
    get_hour "25:30:00" = some (if 24 ≤ 25 then 25 - 24 else 25) ∧
    (25 < 48 → get_hour "25:30:00" = some (25 % 24)) :=
  ⟨⟨by decide, by decide⟩,
    get_hour_single_subtraction "25:30:00" ['2', '5'] ['3', '0'] ['0', '0'] 25
      (by decide) (by decide)⟩

/-- C7 counterexample: a malformed time string in the second row makes the
whole `formatStopTimes` batch fail with `none` — the well-formed first row
is not emitted either — even though the same first row alone succeeds; the
failing row is not dropped-and-counted as the claim states. -/
theorem format_abort_cex :
    formatStopTimes [⟨"t1", "08:00:00", "08:00:00"⟩, ⟨"t2", "8:00", "8:00"⟩] = none ∧
    formatStopTimes [⟨"t1", "08:00:00", "08:00:00"⟩] = some [⟨"t1", 8, 8⟩] := by
  decide

/-- C7 (amended): a stop_time row whose arrival or departure time fails the
expected format (the `assert` or `int()` raises) aborts the whole batch:
`formatStopTimes` returns `none` and no rows of the batch are emitted,
rather than dropping and counting only the failing row. -/
theorem format_aborts_batch (rows : List RawStopTimeRow) (r : RawStopTimeRow)
    (hr : r ∈ rows)
    (hbad : get_hour r.arrival_time = none ∨ get_hour r.departure_time = none) :
    formatStopTimes rows = none := by
  induction rows with
  | nil => cases hr
  | cons a t ih =>
    rcases List.mem_cons.mp hr with rfl | hmem
    · cases ha : get_hour r.arrival_time with
      | none => simp [formatStopTimes, ha]
      | some ah =>
        cases hd : get_hour r.departure_time with
        | none => simp [formatStopTimes, ha, hd]
        | some dh =>
          rcases hbad with h | h
          · rw [ha] at h; cases h
          · rw [hd] at h; cases h
    · have ht := ih hmem
      cases ha : get_hour a.arrival_time with
      | none => simp [formatStopTimes, ha]
      | some ah =>
        cases hd : get_hour a.departure_time with
        | none => simp [formatStopTimes, ha, hd]
        | some dh => simp [formatStopTimes, ha, hd, ht]

theorem format_aborts_batch_witness :
    ((⟨"t2", "8:00", "8:00"⟩ : RawStopTimeRow) ∈
        [(⟨"t1", "08:00:00", "08:00:00"⟩ : RawStopTimeRow), ⟨"t2", "8:00", "8:00"⟩] ∧
      get_hour "8:00" = none) ∧
    formatStopTimes [⟨"t1", "08:00:00", "08:00:00"⟩, ⟨"t2", "8:00", "8:00"⟩] = none :=
  ⟨⟨by decide, by decide⟩,
    format_aborts_batch _ ⟨"t2", "8:00", "8:00"⟩ (by decide) (Or.inl (by decide))⟩

/-- C8 counterexample: on a feed lacking `calendar.txt` (but carrying
`calendar_dates.txt`), the loader leaves `calendar` absent (`none`) instead
of substituting an empty table, so it differs from the spec-described
loader `gtfsFeedInitSpecModel`, which would set `calendar = some []`. -/
theorem gtfs_missing_calendar_cex :
    (gtfsFeedInit ⟨[("stops.txt", []), ("stop_times.txt", []), ("routes.txt", []),
        ("trips.txt", []), ("calendar_dates.txt", [["S", "20220606", "2"]])]⟩).calendar
      = none ∧
    (gtfsFeedInitSpecModel ⟨[("stops.txt", []), ("stop_times.txt", []), ("routes.txt", []),
        ("trips.txt", []), ("calendar_dates.txt", [["S", "20220606", "2"]])]⟩).calendar
      = some [] ∧
    gtfsFeedInit ⟨[("stops.txt", []), ("stop_times.txt", []), ("routes.txt", []),
        ("trips.txt", []), ("calendar_dates.txt", [["S", "20220606", "2"]])]⟩
      ≠ gtfsFeedInitSpecModel ⟨[("stops.txt", []), ("stop_times.txt", []), ("routes.txt", []),
        ("trips.txt", []), ("calendar_dates.txt", [["S", "20220606", "2"]])]⟩ := by
  decide

/-- C8 (amended): when `calendar.txt` or `calendar_dates.txt` is absent
the loader skips the missing file and leaves that attribute unset
(`none`) — no empty table is substituted — while the other, present,
calendar table is still read and the required tables are still loaded, so
processing of the rest of the feed continues.  Both missing-file cases are
covered. -/
theorem gtfs_missing_optional_skipped (z : ZipArchive) :
    ("calendar.txt" ∉ z.namelist → "calendar_dates.txt" ∈ z.namelist →
      (gtfsFeedInit z).calendar = none ∧
      (gtfsFeedInit z).calendar_dates = z.readTable "calendar_dates.txt" ∧
      ((gtfsFeedInit z).calendar_dates).isSome = true ∧
      (gtfsFeedInit z).stops = z.readTable "stops.txt") ∧
    ("calendar_dates.txt" ∉ z.namelist → "calendar.txt" ∈ z.namelist →
      (gtfsFeedInit z).calendar_dates = none ∧
      (gtfsFeedInit z).calendar = z.readTable "calendar.txt" ∧
      ((gtfsFeedInit z).calendar).isSome = true ∧
      (gtfsFeedInit z).stops = z.readTable "stops.txt") := by
  have hfind : ∀ name : String, name ∈ z.namelist →
      (z.members.find? fun m => m.1 == name).isSome = true := by
    intro name hmem
    rw [List.find?_isSome]
    rcases List.mem_map.mp hmem with ⟨m, hm, he⟩
    exact ⟨m, hm, by simp [he]⟩
  constructor
  · intro hcal hcd
    refine ⟨?_, ?_, ?_, ?_⟩
    · simp [gtfsFeedInit, hcal]
    · simp [gtfsFeedInit, hcd]
    · simp [gtfsFeedInit, hcd, ZipArchive.readTable, hfind "calendar_dates.txt" hcd]
    · simp [gtfsFeedInit]
  · intro hcd hcal
    refine ⟨?_, ?_, ?_, ?_⟩
    · simp [gtfsFeedInit, hcd]
    · simp [gtfsFeedInit, hcal]
    · simp [gtfsFeedInit, hcal, ZipArchive.readTable, hfind "calendar.txt" hcal]
    · simp [gtfsFeedInit]

theorem gtfs_missing_optional_skipped_witness :
    (("calendar.txt" ∉ (ZipArchive.mk [("stops.txt", []), ("stop_times.txt", []),
        ("routes.txt", []), ("trips.txt", []),
        ("calendar_dates.txt", [["S", "20220606", "2"]])]).namelist ∧
      "calendar_dates.txt" ∈ (ZipArchive.mk [("stops.txt", []), ("stop_times.txt", []),
        ("routes.txt", []), ("trips.txt", []),
        ("calendar_dates.txt", [["S", "20220606", "2"]])]).namelist) ∧
      ("calendar_dates.txt" ∉ (ZipArchive.mk [("stops.txt", []), ("stop_times.txt", []),
        ("routes.txt", []), ("trips.txt", []),
        ("calendar.txt", [["S", "1", "0", "0", "0", "0", "0", "0"]])]).namelist ∧
      "calendar.txt" ∈ (ZipArchive.mk [("stops.txt", []), ("stop_times.txt", []),
        ("routes.txt", []), ("trips.txt", []),
        ("calendar.txt", [["S", "1", "0", "0", "0", "0", "0", "0"]])]).namelist)) ∧
    ((gtfsFeedInit ⟨[("stops.txt", []), ("stop_times.txt", []), ("routes.txt", []),
        ("trips.txt", []), ("calendar_dates.txt", [["S", "20220606", "2"]])]⟩).calendar
      = none ∧
    (gtfsFeedInit ⟨[("stops.txt", []), ("stop_times.txt", []), ("routes.txt", []),
        ("trips.txt", []), ("calendar_dates.txt", [["S", "20220606", "2"]])]⟩).calendar_dates
      = (ZipArchive.mk [("stops.txt", []), ("stop_times.txt", []), ("routes.txt", []),
        ("trips.txt", []), ("calendar_dates.txt", [["S", "20220606", "2"]])]).readTable
          "calendar_dates.txt" ∧
    ((gtfsFeedInit ⟨[("stops.txt", []), ("stop_times.txt", []), ("routes.txt", []),
        ("trips.txt", []),
        ("calendar_dates.txt", [["S", "20220606", "2"]])]⟩).calendar_dates).isSome = true ∧
    (gtfsFeedInit ⟨[("stops.txt", []), ("stop_times.txt", []), ("routes.txt", []),
        ("trips.txt", []), ("calendar_dates.txt", [["S", "20220606", "2"]])]⟩).stops
      = (ZipArchive.mk [("stops.txt", []), ("stop_times.txt", []), ("routes.txt", []),
        ("trips.txt", []), ("calendar_dates.txt", [["S", "20220606", "2"]])]).readTable
          "stops.txt") ∧
    ((gtfsFeedInit ⟨[("stops.txt", []), ("stop_times.txt", []), ("routes.txt", []),
        ("trips.txt", []),
        ("calendar.txt", [["S", "1", "0", "0", "0", "0", "0", "0"]])]⟩).calendar_dates
      = none ∧
    (gtfsFeedInit ⟨[("stops.txt", []), ("stop_times.txt", []), ("routes.txt", []),
        ("trips.txt", []), ("calendar.txt", [["S", "1", "0", "0", "0", "0", "0", "0"]])]⟩).calendar
      = (ZipArchive.mk [("stops.txt", []), ("stop_times.txt", []), ("routes.txt", []),
        ("trips.txt", []),
        ("calendar.txt", [["S", "1", "0", "0", "0", "0", "0", "0"]])]).readTable "calendar.txt" ∧
    ((gtfsFeedInit ⟨[("stops.txt", []), ("stop_times.txt", []), ("routes.txt", []),
        ("trips.txt", []),
        ("calendar.txt", [["S", "1", "0", "0", "0", "0", "0", "0"]])]⟩).calendar).isSome = true ∧
    (gtfsFeedInit ⟨[("stops.txt", []), ("stop_times.txt", []), ("routes.txt", []),
        ("trips.txt", []), ("calendar.txt", [["S", "1", "0", "0", "0", "0", "0", "0"]])]⟩).stops
      = (ZipArchive.mk [("stops.txt", []), ("stop_times.txt", []), ("routes.txt", []),
        ("trips.txt", []),
        ("calendar.txt", [["S", "1", "0", "0", "0", "0", "0", "0"]])]).readTable "stops.txt") :=
  ⟨⟨⟨by decide, by decide⟩, ⟨by decide, by decide⟩⟩,
    (gtfs_missing_optional_skipped ⟨[("stops.txt", []), ("stop_times.txt", []),
      ("routes.txt", []), ("trips.txt", []),
      ("calendar_dates.txt", [["S", "20220606", "2"]])]⟩).1 (by decide) (by decide),
    (gtfs_missing_optional_skipped ⟨[("stops.txt", []), ("stop_times.txt", []),
      ("routes.txt", []), ("trips.txt", []),
      ("calendar.txt", [["S", "1", "0", "0", "0", "0", "0", "0"]])]⟩).2
      (by decide) (by decide)⟩

/-- C6: a processing day whose raw scrape files contain zero vehicle rows
in total produces no hourly-summary output at all (`processDay` is `none`:
absence of the day's file, not a zero-filled row), so a date with no data
is distinguishable downstream from a date with confirmed zero trips. -/
theorem empty_day_no_output (files : List ScrapeFile)
    (h : flattenVehicles files = []) : processDay files = none := by
  simp [processDay, h]

theorem empty_day_no_output_witness :
    flattenVehicles [⟨"f1", [⟨none, some [⟨"22", "No data found"⟩]⟩]⟩] = [] ∧
    processDay [⟨"f1", [⟨none, some [⟨"22", "No data found"⟩]⟩]⟩] = none :=
  ⟨by decide, empty_day_no_output _ (by decide)⟩

/-- C9: the holiday override is applied after the weekday/weekend map and
takes precedence: every classified row whose date is in the configured
holiday list ends with day_type `hol`; in particular 2022-07-04 is a Monday
(`dayofweek = 0`), the weekday map alone classifies it `wk`, and the
configured override reclassifies it `hol`. -/
theorem holiday_override_precedence :
    (∀ (hol : List Nat) (rows : List CompareDailyRow) (row : ClassifiedRow),
      row ∈ classifyDayTypes hol rows → row.date ∈ hol → row.day_type = some "hol") ∧
    dayofweek (daysFromCivil 2022 7 4) = 0 ∧
    (withDayType ⟨daysFromCivil 2022 7 4, "1", 0, 0⟩).day_type = some "wk" ∧
    (holidayOverride holidays2022 (withDayType ⟨daysFromCivil 2022 7 4, "1", 0, 0⟩)).day_type
      = some "hol" := by
  refine ⟨?_, by decide, by decide, by decide⟩
  intro hol rows row hrow hdate
  rcases List.mem_map.mp hrow with ⟨x, _, rfl⟩
  have hdx : (holidayOverride hol x).date = x.date := by
    unfold holidayOverride
    split <;> rfl
  rw [hdx] at hdate
  simp [holidayOverride, hdate]

theorem holiday_override_precedence_witness :
    ((holidayOverride holidays2022 (withDayType ⟨daysFromCivil 2022 7 4, "22", 5, 7⟩) ∈
        classifyDayTypes holidays2022 [⟨daysFromCivil 2022 7 4, "22", 5, 7⟩]) ∧
      (holidayOverride holidays2022 (withDayType ⟨daysFromCivil 2022 7 4, "22", 5, 7⟩)).date
        ∈ holidays2022) ∧
    (holidayOverride holidays2022 (withDayType ⟨daysFromCivil 2022 7 4, "22", 5, 7⟩)).day_type
      = some "hol" :=
  ⟨⟨by decide, by decide⟩,
    holiday_override_precedence.1 holidays2022 [⟨daysFromCivil 2022 7 4, "22", 5, 7⟩] _
      (by decide) (by decide)⟩

/-- Membership characterization of the realtime daily groupby. -/
theorem mem_rtDailyByRte (rows : List RtRawRow) (a : DailyRow) :
    a ∈ rtDailyByRte rows ↔ ∃ k : Nat × String,
      (∃ r ∈ rows, r.data_date = k.1 ∧ r.rt = k.2) ∧
      a = ⟨k.1, k.2,
        ((rows.filter fun r => r.data_date == k.1 && r.rt == k.2).map (·.trip_count)).sum⟩ := by
  unfold rtDailyByRte
  rw [List.mem_map]
  constructor
  · rintro ⟨k, hk, rfl⟩
    rw [List.mem_dedup] at hk
    rcases List.mem_map.mp hk with ⟨r, hr, he⟩
    subst he
    exact ⟨_, ⟨r, hr, rfl, rfl⟩, rfl⟩
  · rintro ⟨k, ⟨r, hr, h1, h2⟩, rfl⟩
    refine ⟨k, ?_, rfl⟩
    rw [List.mem_dedup]
    exact List.mem_map.mpr ⟨r, hr, by rw [h1, h2]⟩

/-- Membership characterization of the scheduled daily groupby. -/
theorem mem_schedDailyByRte (rows : List SchedRawRow) (b : DailyRow) :
    b ∈ schedDailyByRte rows ↔ ∃ k : Nat × String,
      (∃ r ∈ rows, r.date = k.1 ∧ r.route_id = k.2) ∧
      b = ⟨k.1, k.2,
        ((rows.filter fun r => r.date == k.1 && r.route_id == k.2).map (·.trip_count)).sum⟩ := by
  unfold schedDailyByRte
  rw [List.mem_map]
  constructor
  · rintro ⟨k, hk, rfl⟩
    rw [List.mem_dedup] at hk
    rcases List.mem_map.mp hk with ⟨r, hr, he⟩
    subst he
    exact ⟨_, ⟨r, hr, rfl, rfl⟩, rfl⟩
  · rintro ⟨k, ⟨r, hr, h1, h2⟩, rfl⟩
    refine ⟨k, ?_, rfl⟩
    rw [List.mem_dedup]
    exact List.mem_map.mpr ⟨r, hr, by rw [h1, h2]⟩

/-- C10: the per-period comparison joins the realtime and scheduled daily
aggregates with an inner merge: a (date, route) key absent from either side
produces no comparison row at all — it is excluded from both
`trip_count_rt` and `trip_count_sched` rather than compared against a zero
— and every comparison row carries exactly the two per-side daily sums of a
key present in both inputs. -/
theorem inner_join_excludes_unmatched (rtRows : List RtRawRow) (schedRows : List SchedRawRow)
    (d : Nat) (rte : String) :
    ((∀ s ∈ schedRows, ¬(s.date = d ∧ s.route_id = rte)) →
      ∀ row ∈ compareDailyByRte rtRows schedRows, ¬(row.date = d ∧ row.route_id = rte)) ∧
    ((∀ s ∈ rtRows, ¬(s.data_date = d ∧ s.rt = rte)) →
      ∀ row ∈ compareDailyByRte rtRows schedRows, ¬(row.date = d ∧ row.route_id = rte)) ∧
    (∀ row ∈ compareDailyByRte rtRows schedRows, row.date = d → row.route_id = rte →
      (∃ a ∈ rtRows, a.data_date = d ∧ a.rt = rte) ∧
      (∃ b ∈ schedRows, b.date = d ∧ b.route_id = rte) ∧
      row.trip_count_rt =
        ((rtRows.filter fun x => x.data_date == d && x.rt == rte).map (·.trip_count)).sum ∧
      row.trip_count_sched =
        ((schedRows.filter fun x => x.date == d && x.route_id == rte).map (·.trip_count)).sum) := by
  have main : ∀ row ∈ compareDailyByRte rtRows schedRows, row.date = d → row.route_id = rte →
      (∃ a ∈ rtRows, a.data_date = d ∧ a.rt = rte) ∧
      (∃ b ∈ schedRows, b.date = d ∧ b.route_id = rte) ∧
      row.trip_count_rt =
        ((rtRows.filter fun x => x.data_date == d && x.rt == rte).map (·.trip_count)).sum ∧
      row.trip_count_sched =
        ((schedRows.filter fun x => x.date == d && x.route_id == rte).map (·.trip_count)).sum := by
    intro row hrow hd hrte
    rcases List.mem_flatMap.mp hrow with ⟨a, ha, hrow2⟩
    rcases List.mem_map.mp hrow2 with ⟨b, hb, hrowe⟩
    rw [List.mem_filter] at hb
    obtain ⟨hbmem, hbkey⟩ := hb
    subst hrowe
    have hd' : a.date = d := hd
    have hrte' : a.route_id = rte := hrte
    rcases (mem_rtDailyByRte rtRows a).mp ha with ⟨ka, ⟨ra, hra, hra1, hra2⟩, hae⟩
    rcases (mem_schedDailyByRte schedRows b).mp hbmem with ⟨kb, ⟨rb, hrb, hrb1, hrb2⟩, hbe⟩
    have hka1 : ka.1 = d := by rw [← hd', hae]
    have hka2 : ka.2 = rte := by rw [← hrte', hae]
    have hbd : b.date = a.date := by
      have := (Bool.and_eq_true _ _).mp hbkey
      exact eq_of_beq this.1
    have hbr : b.route_id = a.route_id := by
      have := (Bool.and_eq_true _ _).mp hbkey
      exact eq_of_beq this.2
    have hkb1 : kb.1 = d := by rw [← hd', ← hbd, hbe]
    have hkb2 : kb.2 = rte := by rw [← hrte', ← hbr, hbe]
    refine ⟨⟨ra, hra, by rw [hra1, hka1], by rw [hra2, hka2]⟩,
      ⟨rb, hrb, by rw [hrb1, hkb1], by rw [hrb2, hkb2]⟩, ?_, ?_⟩
    · show a.trip_count = _
      rw [hae, ← hka1, ← hka2]
    · show b.trip_count = _
      rw [hbe, ← hkb1, ← hkb2]
  refine ⟨?_, ?_, main⟩
  · intro hno row hrow hc
    rcases (main row hrow hc.1 hc.2).2.1 with ⟨b, hb, h1, h2⟩
    exact hno b hb ⟨h1, h2⟩
  · intro hno row hrow hc
    rcases (main row hrow hc.1 hc.2).1 with ⟨a, ha, h1, h2⟩
    exact hno a ha ⟨h1, h2⟩

theorem inner_join_excludes_unmatched_witness :
    ((⟨10, "22", 5, 4⟩ : CompareDailyRow) ∈
        compareDailyByRte [⟨10, 8, "22", "d1", 3⟩, ⟨10, 9, "22", "d1", 2⟩] [⟨10, "22", 8, 4⟩] ∧
      (∀ s ∈ [(⟨10, "22", 8, 4⟩ : SchedRawRow)], ¬(s.date = 10 ∧ s.route_id = "99"))) ∧
    ((∃ a ∈ [(⟨10, 8, "22", "d1", 3⟩ : RtRawRow), ⟨10, 9, "22", "d1", 2⟩],
        a.data_date = 10 ∧ a.rt = "22") ∧
      (∃ b ∈ [(⟨10, "22", 8, 4⟩ : SchedRawRow)], b.date = 10 ∧ b.route_id = "22") ∧
      (⟨10, "22", 5, 4⟩ : CompareDailyRow).trip_count_rt =
        (([(⟨10, 8, "22", "d1", 3⟩ : RtRawRow), ⟨10, 9, "22", "d1", 2⟩].filter fun x =>
          x.data_date == 10 && x.rt == "22").map (·.trip_count)).sum ∧
      (⟨10, "22", 5, 4⟩ : CompareDailyRow).trip_count_sched =
        (([(⟨10, "22", 8, 4⟩ : SchedRawRow)].filter fun x =>
          x.date == 10 && x.route_id == "22").map (·.trip_count)).sum) ∧
    (∀ row ∈ compareDailyByRte [⟨10, 8, "22", "d1", 3⟩, ⟨10, 9, "22", "d1", 2⟩]
        [⟨10, "22", 8, 4⟩], ¬(row.date = 10 ∧ row.route_id = "99")) :=
  ⟨⟨by decide, by decide⟩,
    (inner_join_excludes_unmatched [⟨10, 8, "22", "d1", 3⟩, ⟨10, 9, "22", "d1", 2⟩]
      [⟨10, "22", 8, 4⟩] 10 "22").2.2 _ (by decide) rfl rfl,
    (inner_join_excludes_unmatched [⟨10, 8, "22", "d1", 3⟩, ⟨10, 9, "22", "d1", 2⟩]
      [⟨10, "22", 8, 4⟩] 10 "99").1 (by decide)⟩

/-- C3 counterexample: a (route, day_type) group whose scheduled sum is 0
is emitted anyway, with `ratio = +inf` (observed 40 divided by 0.0 in
float64): it is coerced to infinity, not flagged as a distinct undefined /
no-scheduled-service condition, so the claim as stated fails on the code. -/
theorem ratio_zero_sched_cex :
    compareByDayType [⟨0, "22", 40, 0, 2, some "wk"⟩] =
      [⟨"22", "wk", 40, 0, PFloat.posInf⟩] ∧
    (∀ q : ℚ, PFloat.posInf ≠ PFloat.val q) :=
  ⟨by decide, fun _ h => PFloat.noConfusion h⟩

/-- C3 (amended): every emitted (route, day_type) row carries the group
sums of the classified daily rows and the unguarded quotient: when
`scheduled_sum ≠ 0` the ratio is exactly `observed_sum / scheduled_sum`;
when `scheduled_sum = 0` the row is still emitted — the run does not abort
— but its ratio is `+inf` (or `NaN` when the observed sum is 0 too) rather
than a distinct undefined flag; and every (route, day_type) key occurring
in the input produces a row. -/
theorem ratio_amended (rows : List ClassifiedRow) :
    (∀ row ∈ compareByDayType rows,
      row.trip_count_rt = ((rows.filter fun r =>
        r.route_id == row.route_id && r.day_type == some row.day_type).map
          (·.trip_count_rt)).sum ∧
      row.trip_count_sched = ((rows.filter fun r =>
        r.route_id == row.route_id && r.day_type == some row.day_type).map
          (·.trip_count_sched)).sum ∧
      row.ratio = pandasDiv row.trip_count_rt row.trip_count_sched ∧
      (row.trip_count_sched ≠ 0 →
        row.ratio = PFloat.val ((row.trip_count_rt : ℚ) / (row.trip_count_sched : ℚ))) ∧
      (row.trip_count_sched = 0 → row.trip_count_rt ≠ 0 → row.ratio = PFloat.posInf) ∧
      (row.trip_count_sched = 0 → row.trip_count_rt = 0 → row.ratio = PFloat.nan)) ∧
    (∀ r ∈ rows, ∀ dt, r.day_type = some dt →
      ∃ row ∈ compareByDayType rows, row.route_id = r.route_id ∧ row.day_type = dt) := by
  constructor
  · intro row hrow
    rcases List.mem_map.mp hrow with ⟨k, hk, hrow'⟩
    subst hrow'
    refine ⟨rfl, rfl, rfl, ?_, ?_, ?_⟩
    · intro h
      show pandasDiv _ _ = _
      rw [pandasDiv, if_pos h]
    · intro h0 hrt
      show pandasDiv _ _ = _
      rw [pandasDiv, if_neg (by simpa using h0), if_pos hrt]
    · intro h0 hrt
      show pandasDiv _ _ = _
      rw [pandasDiv, if_neg (by simpa using h0), if_neg (by simpa using hrt)]
  · intro r hr dt hdt
    have hkey : (r.route_id, dt) ∈
        (rows.filterMap fun x => x.day_type.map fun dv => (x.route_id, dv)).dedup := by
      rw [List.mem_dedup]
      exact List.mem_filterMap.mpr ⟨r, hr, by rw [hdt]; rfl⟩
    exact ⟨_, List.mem_map_of_mem _ hkey, rfl, rfl⟩

theorem ratio_amended_witness :
    (((⟨"22", "wk", 40, 100, pandasDiv 40 100⟩ : SummaryRow) ∈
        compareByDayType [⟨0, "22", 40, 100, 2, some "wk"⟩]) ∧
      (⟨"22", "wk", 40, 100, pandasDiv 40 100⟩ : SummaryRow).trip_count_sched ≠ 0) ∧
    (⟨"22", "wk", 40, 100, pandasDiv 40 100⟩ : SummaryRow).ratio =
      PFloat.val ((((⟨"22", "wk", 40, 100, pandasDiv 40 100⟩ : SummaryRow).trip_count_rt : ℚ)) /
        (((⟨"22", "wk", 40, 100, pandasDiv 40 100⟩ : SummaryRow).trip_count_sched : ℚ))) := by
  have hmem : (⟨"22", "wk", 40, 100, pandasDiv 40 100⟩ : SummaryRow) ∈
      compareByDayType [⟨0, "22", 40, 100, 2, some "wk"⟩] := by
    have he : compareByDayType [⟨0, "22", 40, 100, 2, some "wk"⟩] =
        [⟨"22", "wk", 40, 100, pandasDiv 40 100⟩] := rfl
    rw [he]
    exact List.mem_cons_self _ _
  exact ⟨⟨hmem, by decide⟩,
    ((ratio_amended [⟨0, "22", 40, 100, 2, some "wk"⟩]).1 _ hmem).2.2.2.1 (by decide)⟩

/-- C4: the overall multi-version summary concatenates the per-period
summaries, re-sums the raw `trip_count_rt` / `trip_count_sched` across
periods for each (route_id, day_type), and divides the re-derived sums;
concretely two periods of (observed 25, scheduled 50) combine into one row
(50, 100, ratio 1/2 exactly), while with unequal sums across periods the
combined ratio 125/150 = 5/6 differs from the mean 3/4 of the per-period
ratios 1/2 and 1 — the result is not an average of per-period ratios. -/
theorem overall_summary_resums :
    (∀ (periods : List (List SummaryRow)), ∀ row ∈ overallSummary periods,
      row.trip_count_rt = (periods.map fun p => ((p.filter fun r =>
        r.route_id == row.route_id && r.day_type == row.day_type).map
          (·.trip_count_rt)).sum).sum ∧
      row.trip_count_sched = (periods.map fun p => ((p.filter fun r =>
        r.route_id == row.route_id && r.day_type == row.day_type).map
          (·.trip_count_sched)).sum).sum ∧
      row.ratio = pandasDiv row.trip_count_rt row.trip_count_sched) ∧
    overallSummary [[⟨"6", "wk", 25, 50, pandasDiv 25 50⟩], [⟨"6", "wk", 25, 50, pandasDiv 25 50⟩]]
      = [⟨"6", "wk", 50, 100, pandasDiv 50 100⟩] ∧
    pandasDiv 50 100 = PFloat.val (1 / 2) ∧
    overallSummary [[⟨"6", "wk", 25, 50, pandasDiv 25 50⟩],
        [⟨"6", "wk", 100, 100, pandasDiv 100 100⟩]]
      = [⟨"6", "wk", 125, 150, pandasDiv 125 150⟩] ∧
    pandasDiv 125 150 = PFloat.val (5 / 6) ∧
    pandasDiv 25 50 = PFloat.val (1 / 2) ∧ pandasDiv 100 100 = PFloat.val 1 ∧
    PFloat.val ((5 : ℚ) / 6) ≠ PFloat.val (((1 : ℚ) / 2 + 1) / 2) := by
  have hdiv : ∀ (a b : Nat) (q : ℚ), b ≠ 0 → (a : ℚ) / (b : ℚ) = q →
      pandasDiv a b = PFloat.val q := by
    intro a b q hb hq
    unfold pandasDiv
    rw [if_pos hb, hq]
  refine ⟨?_, rfl, hdiv 50 100 _ (by norm_num) (by norm_num), rfl,
    hdiv 125 150 _ (by norm_num) (by norm_num),
    hdiv 25 50 _ (by norm_num) (by norm_num),
    hdiv 100 100 _ (by norm_num) (by norm_num), ?_⟩
  · intro periods row hrow
    rcases List.mem_map.mp hrow with ⟨k, hk, hrow'⟩
    subst hrow'
    have hcomb : periods.foldl (fun acc p => acc ++ p) [] = periods.flatten := by
      simpa using foldl_append_eq_flatten periods []
    refine ⟨?_, ?_, rfl⟩
    · show (((periods.foldl (fun acc p => acc ++ p) []).filter fun r =>
          r.route_id == k.1 && r.day_type == k.2).map (·.trip_count_rt)).sum = _
      rw [hcomb, sum_filter_map_flatten]
    · show (((periods.foldl (fun acc p => acc ++ p) []).filter fun r =>
          r.route_id == k.1 && r.day_type == k.2).map (·.trip_count_sched)).sum = _
      rw [hcomb, sum_filter_map_flatten]
  · intro h
    have h' : (5 : ℚ) / 6 = ((1 : ℚ) / 2 + 1) / 2 := by injection h
    norm_num at h'

theorem overall_summary_resums_witness :
    ((⟨"6", "wk", 50, 100, pandasDiv 50 100⟩ : SummaryRow) ∈
        overallSummary [[⟨"6", "wk", 25, 50, pandasDiv 25 50⟩],
          [⟨"6", "wk", 25, 50, pandasDiv 25 50⟩]]) ∧
    (⟨"6", "wk", 50, 100, pandasDiv 50 100⟩ : SummaryRow).ratio =
      pandasDiv (⟨"6", "wk", 50, 100, pandasDiv 50 100⟩ : SummaryRow).trip_count_rt
        (⟨"6", "wk", 50, 100, pandasDiv 50 100⟩ : SummaryRow).trip_count_sched := by
  have hmem : (⟨"6", "wk", 50, 100, pandasDiv 50 100⟩ : SummaryRow) ∈
      overallSummary [[⟨"6", "wk", 25, 50, pandasDiv 25 50⟩],
        [⟨"6", "wk", 25, 50, pandasDiv 25 50⟩]] := by
    have he : overallSummary [[⟨"6", "wk", 25, 50, pandasDiv 25 50⟩],
        [⟨"6", "wk", 25, 50, pandasDiv 25 50⟩]] =
        [⟨"6", "wk", 50, 100, pandasDiv 50 100⟩] := rfl
    rw [he]
    exact List.mem_cons_self _ _
  exact ⟨hmem, (overall_summary_resums.1 [[⟨"6", "wk", 25, 50, pandasDiv 25 50⟩],
    [⟨"6", "wk", 25, 50, pandasDiv 25 50⟩]] _ hmem).2.2⟩

/-! ### Helper lemmas for the calendar-resolution proofs -/

theorem eq_of_mem_of_length_le_one {α : Type} {l : List α} (hl : l.length ≤ 1)
    {a b : α} (ha : a ∈ l) (hb : b ∈ l) : a = b := by
  match l with
  | [] => cases ha
  | [x] =>
    rw [List.mem_singleton] at ha hb
    rw [ha, hb]
  | x :: y :: t => simp at hl

theorem sum_le_one_of_key {α β : Type} [DecidableEq β] (l : List α) (key : α → β) (b : β)
    (f : α → Nat) (hnd : (l.map key).Nodup) (h0 : ∀ a ∈ l, key a ≠ b → f a = 0)
    (h1 : ∀ a ∈ l, f a ≤ 1) : (l.map f).sum ≤ 1 := by
  induction l with
  | nil => exact Nat.zero_le 1
  | cons a t ih =>
    rw [List.map_cons, List.sum_cons]
    rw [List.map_cons, List.nodup_cons] at hnd
    by_cases hab : key a = b
    · have hz : (t.map f).sum = 0 := by
        refine List.sum_eq_zero fun x hx => ?_
        rcases List.mem_map.mp hx with ⟨c, hc, rfl⟩
        refine h0 c (List.mem_cons_of_mem a hc) fun hcb => ?_
        exact hnd.1 (hab ▸ hcb ▸ List.mem_map_of_mem key hc)
      have := h1 a (List.mem_cons_self a t)
      omega
    · have ha0 : f a = 0 := h0 a (List.mem_cons_self a t) hab
      have := ih hnd.2 (fun c hc => h0 c (List.mem_cons_of_mem a hc))
        (fun c hc => h1 c (List.mem_cons_of_mem a hc))
      omega

theorem sum_le_countP {α : Type} (l : List α) (P : α → Bool) (f : α → Nat)
    (h0 : ∀ a ∈ l, P a = false → f a = 0) (h1 : ∀ a ∈ l, f a ≤ 1) :
    (l.map f).sum ≤ l.countP P := by
  induction l with
  | nil => exact Nat.le_refl 0
  | cons a t ih =>
    rw [List.map_cons, List.sum_cons, List.countP_cons]
    have iht := ih (fun c hc => h0 c (List.mem_cons_of_mem a hc))
      (fun c hc => h1 c (List.mem_cons_of_mem a hc))
    by_cases hp : P a = true
    · have := h1 a (List.mem_cons_self a t)
      simp only [hp, if_true]
      omega
    · have := h0 a (List.mem_cons_self a t) (Bool.eq_false_iff.mpr hp)
      simp only [hp, if_false]
      omega

theorem finset_sum_list_sum (H : Finset Nat) {α : Type} (l : List α) (f : α → Nat → Nat) :
    ∑ h ∈ H, (l.map fun a => f a h).sum = (l.map fun a => ∑ h ∈ H, f a h).sum := by
  induction l with
  | nil => simp
  | cons a t ih => simp [Finset.sum_add_distrib, ih]

/-- Membership in `cdMatches` spelled out. -/
theorem mem_cdMatches (cds : List CalendarDateRow) (d : Nat) (s : String)
    (cd : CalendarDateRow) :
    cd ∈ cdMatches cds d s ↔ cd ∈ cds ∧ cd.date = d ∧ cd.service_id = s := by
  simp [cdMatches, List.mem_filter, and_assoc]

/-- When `calendar_dates` has no duplicate (service, date) pair, at most one
row matches a given pair. -/
theorem cdMatches_length_le_one (cds : List CalendarDateRow)
    (hcds : (cds.map fun cd => (cd.service_id, cd.date)).Nodup) (d : Nat) (s : String) :
    (cdMatches cds d s).length ≤ 1 := by
  refine length_le_one_of_const_keys _ (fun cd => (cd.service_id, cd.date)) (s, d) ?_ ?_
  · exact ((List.filter_sublist _).map _).nodup hcds
  · intro cd hcd
    rcases (mem_cdMatches cds d s cd).mp hcd with ⟨_, h1, h2⟩
    show (cd.service_id, cd.date) = (s, d)
    rw [h1, h2]

/-- The seven melted day columns contain exactly one entry per day number
0–6, so at most one melted row of a calendar row matches a given weekday. -/
theorem dayFlags_countP_le_one (c : CalendarRow) (w : Nat) :
    ((dayFlags c).countP fun wv => wv.1 == w) ≤ 1 := by
  have hmap : (dayFlags c).map (·.1) = [0, 1, 2, 3, 4, 5, 6] := rfl
  have h1 : ((dayFlags c).countP fun wv => wv.1 == w) =
      List.count w ((dayFlags c).map (·.1)) := by
    rw [List.count, countP_map_eq]
  rw [h1, hmap]
  exact List.nodup_iff_count_le_one.mp (by decide) w

/-- For every weekday number below 7 there is a melted column entry. -/
theorem dayFlags_exists_entry (c : CalendarRow) (w : Nat) (hw : w < 7) :
    ∃ v, (w, v) ∈ dayFlags c := by
  interval_cases w
  · exact ⟨c.monday, by simp [dayFlags]⟩
  · exact ⟨c.tuesday, by simp [dayFlags]⟩
  · exact ⟨c.wednesday, by simp [dayFlags]⟩
  · exact ⟨c.thursday, by simp [dayFlags]⟩
  · exact ⟨c.friday, by simp [dayFlags]⟩
  · exact ⟨c.saturday, by simp [dayFlags]⟩
  · exact ⟨c.sunday, by simp [dayFlags]⟩

/-- Pattern rows with a given (date, service, flag value) exist exactly for
calendar rows whose weekday flag column at the date's day of week carries
that value, with the date in range and in the validity window. -/
theorem patternService_mem_iff (cal : List CalendarRow) (d : Nat) (s : String) (v : String) :
    (∃ p ∈ patternService cal, p.raw_date = d ∧ p.service_id = s ∧ p.cal_val = v) ↔
    (d ∈ calendarDateRange cal ∧ ∃ c ∈ cal, c.service_id = s ∧
      (dayofweek d, v) ∈ dayFlags c ∧ c.start_date ≤ d ∧ d ≤ c.end_date) := by
  constructor
  · rintro ⟨p, hp, hpd, hps, hpv⟩
    rw [patternService, List.mem_filter] at hp
    obtain ⟨hmem, hcond⟩ := hp
    rw [crossMelt, List.mem_flatMap] at hmem
    rcases hmem with ⟨d', hd', hmem⟩
    rw [List.mem_flatMap] at hmem
    rcases hmem with ⟨c, hc, hmem⟩
    rcases List.mem_map.mp hmem with ⟨wv, hwv, hpe⟩
    have hd'd : d' = d := by rw [← hpd, ← hpe]
    have hcs : c.service_id = s := by rw [← hps, ← hpe]
    have hdaynum : p.cal_daynum = wv.1 := by rw [← hpe]
    have hcalval : p.cal_val = wv.2 := by rw [← hpe]
    have hstart : p.start_date = c.start_date := by rw [← hpe]
    have hend : p.end_date = c.end_date := by rw [← hpe]
    simp only [Bool.and_eq_true, beq_iff_eq, decide_eq_true_eq] at hcond
    obtain ⟨⟨hdow, hlo⟩, hhi⟩ := hcond
    refine ⟨hd'd ▸ hd', c, hc, hcs, ?_, ?_, ?_⟩
    · have : wv = (dayofweek d, v) := by
        have h1 : wv.1 = dayofweek d := by rw [← hdaynum, ← hdow, hpd]
        have h2 : wv.2 = v := by rw [← hcalval, hpv]
        exact Prod.ext h1 h2
      exact this ▸ hwv
    · rw [← hstart, ← hpd]; exact hlo
    · rw [← hend, ← hpd]; exact hhi
  · rintro ⟨hd, c, hc, hcs, hwv, hlo, hhi⟩
    refine ⟨⟨d, c.service_id, c.start_date, c.end_date, dayofweek d, v⟩, ?_, rfl, hcs, rfl⟩
    rw [patternService, List.mem_filter]
    constructor
    · rw [crossMelt, List.mem_flatMap]
      refine ⟨d, hd, ?_⟩
      rw [List.mem_flatMap]
      exact ⟨c, hc, List.mem_map.mpr ⟨(dayofweek d, v), hwv, rfl⟩⟩
    · simp [hlo, hhi]

theorem option_some_orElse {α : Type} (a : α) (f : Unit → Option α) :
    (some a).orElse f = some a := rfl

theorem option_none_orElse {α : Type} (f : Unit → Option α) :
    Option.orElse none f = f () := rfl

/-- Where `service_happened` rows with a given (date, service) key come
from: a kept pattern row with flag value '1' and no exception, a pattern
row merged with an `exception_type = '1'` row, or an unmatched
`exception_type = '1'` exception row. -/
theorem serviceHappened_mem_iff (cal : List CalendarRow) (cds : List CalendarDateRow)
    (d : Nat) (s : String) :
    serviceRunsOn cal cds d s = true ↔
      ((∃ p ∈ patternService cal, p.raw_date = d ∧ p.service_id = s ∧
        ((cdMatches cds d s = [] ∧ p.cal_val = "1") ∨
          ∃ cd ∈ cdMatches cds d s, cd.exception_type = "1")) ∨
      ((¬ ∃ p ∈ patternService cal, p.raw_date = d ∧ p.service_id = s) ∧
        ∃ cd ∈ cdMatches cds d s, cd.exception_type = "1")) := by
  rw [serviceRunsOn, List.any_eq_true]
  constructor
  · rintro ⟨r, hr, hkey⟩
    rw [serviceHappened, List.mem_filter] at hr
    obtain ⟨hr', hflag⟩ := hr
    rcases List.mem_map.mp hr' with ⟨m, hm, rfl⟩
    simp only [Bool.and_eq_true, beq_iff_eq] at hkey
    obtain ⟨hkd, hks⟩ := hkey
    rw [outerMergeService, List.mem_append] at hm
    rcases hm with hm | hm
    · rcases List.mem_flatMap.mp hm with ⟨p, hp, hmm⟩
      by_cases hE : (cdMatches cds p.raw_date p.service_id).isEmpty
      · rw [if_pos hE, List.mem_singleton] at hmm
        subst hmm
        simp only [fillRawDate, option_some_orElse, Option.some.injEq] at hkd
        simp only [fillRawDate] at hks
        simp only [serviceHappenedFlag, fillRawDate, Bool.or_eq_true, Bool.and_eq_true,
          beq_iff_eq, Option.some.injEq] at hflag
        rcases hflag with ⟨hv, _⟩ | h
        · refine Or.inl ⟨p, hp, hkd, hks, Or.inl ⟨?_, hv⟩⟩
          rw [← hkd, ← hks]
          exact List.isEmpty_iff.mp hE
        · exact absurd h (by simp)
      · rw [if_neg hE] at hmm
        rcases List.mem_map.mp hmm with ⟨cd, hcd, hme⟩
        subst hme
        simp only [fillRawDate, option_some_orElse, Option.some.injEq] at hkd
        simp only [fillRawDate] at hks
        simp only [serviceHappenedFlag, fillRawDate, Bool.or_eq_true, Bool.and_eq_true,
          beq_iff_eq, Option.some.injEq] at hflag
        rcases hflag with ⟨_, h⟩ | hv
        · exact absurd h (by simp)
        · refine Or.inl ⟨p, hp, hkd, hks, Or.inr ⟨cd, ?_, hv⟩⟩
          rw [← hkd, ← hks]
          exact hcd
    · rcases List.mem_map.mp hm with ⟨cd, hcd, hme⟩
      subst hme
      rw [List.mem_filter] at hcd
      obtain ⟨hcds', hunm⟩ := hcd
      simp only [fillRawDate, option_none_orElse, Option.some.injEq] at hkd
      simp only [fillRawDate] at hks
      simp only [serviceHappenedFlag, fillRawDate, Bool.or_eq_true, Bool.and_eq_true,
        beq_iff_eq, Option.some.injEq] at hflag
      rcases hflag with ⟨h, _⟩ | hv
      · exact absurd h (by simp)
      · refine Or.inr ⟨?_, cd, (mem_cdMatches cds d s cd).mpr ⟨hcds', hkd, hks⟩, hv⟩
        rintro ⟨p, hp, hpd, hps⟩
        simp only [Bool.not_eq_eq_eq_not, Bool.not_true] at hunm
        rw [List.any_eq_false] at hunm
        exact absurd (by simp [hpd, hkd, hps, hks]) (hunm p hp)
  · intro hcase
    rcases hcase with ⟨p, hp, hpd, hps, hsub⟩ | ⟨hnop, cd, hcd, hv⟩
    · rcases hsub with ⟨hM, hv⟩ | ⟨cd, hcd, hv⟩
      · refine ⟨fillRawDate ⟨some p.raw_date, p.service_id, some p.cal_val, none, none⟩,
          ?_, ?_⟩
        · rw [serviceHappened, List.mem_filter]
          constructor
          · refine List.mem_map_of_mem _ ?_
            rw [outerMergeService, List.mem_append]
            refine Or.inl (List.mem_flatMap.mpr ⟨p, hp, ?_⟩)
            have hE : (cdMatches cds p.raw_date p.service_id).isEmpty = true := by
              rw [hpd, hps, hM]
              rfl
            rw [if_pos hE]
            exact List.mem_singleton.mpr rfl
          · simp [serviceHappenedFlag, fillRawDate, hv]
        · simp [fillRawDate, option_some_orElse, hpd, hps]
      · refine ⟨fillRawDate ⟨some p.raw_date, p.service_id, some p.cal_val,
          some cd.exception_type, some cd.date⟩, ?_, ?_⟩
        · rw [serviceHappened, List.mem_filter]
          constructor
          · refine List.mem_map_of_mem _ ?_
            rw [outerMergeService, List.mem_append]
            refine Or.inl (List.mem_flatMap.mpr ⟨p, hp, ?_⟩)
            rw [if_neg (by
              rw [hpd, hps]
              exact fun h => List.ne_nil_of_mem hcd (List.isEmpty_iff.mp h))]
            refine List.mem_map.mpr ⟨cd, ?_, rfl⟩
            rw [hpd, hps]
            exact hcd
          · simp [serviceHappenedFlag, fillRawDate, hv]
        · simp [fillRawDate, option_some_orElse, hpd, hps]
    · have hcd' := (mem_cdMatches cds d s cd).mp hcd
      refine ⟨fillRawDate ⟨none, cd.service_id, none, some cd.exception_type, some cd.date⟩,
        ?_, ?_⟩
      · rw [serviceHappened, List.mem_filter]
        constructor
        · refine List.mem_map_of_mem _ ?_
          rw [outerMergeService, List.mem_append]
          refine Or.inr (List.mem_map.mpr ⟨cd, ?_, rfl⟩)
          rw [List.mem_filter]
          refine ⟨hcd'.1, ?_⟩
          simp only [Bool.not_eq_eq_eq_not, Bool.not_true]
          rw [List.any_eq_false]
          intro p hp
          simp only [Bool.and_eq_true, beq_iff_eq, not_and]
          intro hpd hps
          exact absurd ⟨p, hp, by rw [hpd, hcd'.2.1], by rw [hps, hcd'.2.2]⟩ hnop
        · simp [serviceHappenedFlag, fillRawDate, hv]
      · simp [fillRawDate, option_none_orElse, hcd'.2.1, hcd'.2.2]

/-- C1: for every date in the resolver's date range and every service, the
pair is resolved active iff (the date's day-of-week flag is '1' in that
service's calendar row and the date lies in the row's validity window, and
no calendar_dates row exists for the pair) or (a calendar_dates row with
exception_type '1' (added) exists for the pair); and a calendar_dates row
with exception_type '2' (removed) makes the pair inactive regardless of
the weekly pattern.  Requires the GTFS well-formedness condition that
calendar_dates has no duplicate (service, date) pair. -/
theorem calendar_resolver_active_iff (cal : List CalendarRow) (cds : List CalendarDateRow)
    (hcds : (cds.map fun cd => (cd.service_id, cd.date)).Nodup)
    (d : Nat) (s : String) (hd : d ∈ calendarDateRange cal) :
    (serviceRunsOn cal cds d s = true ↔
      ((∃ c ∈ cal, c.service_id = s ∧ (dayofweek d, "1") ∈ dayFlags c ∧
          c.start_date ≤ d ∧ d ≤ c.end_date) ∧
        ¬ ∃ cd ∈ cds, cd.service_id = s ∧ cd.date = d) ∨
      (∃ cd ∈ cds, cd.service_id = s ∧ cd.date = d ∧ cd.exception_type = "1")) ∧
    ((∃ cd ∈ cds, cd.service_id = s ∧ cd.date = d ∧ cd.exception_type = "2") →
      serviceRunsOn cal cds d s = false) := by
  have hlen := cdMatches_length_le_one cds hcds d s
  have hpairM : ∀ cd : CalendarDateRow, (cd ∈ cds ∧ cd.service_id = s ∧ cd.date = d) ↔
      cd ∈ cdMatches cds d s := by
    intro cd
    rw [mem_cdMatches]
    tauto
  rcases hME : cdMatches cds d s with _ | ⟨e, es⟩
  · -- no exception row for the pair
    have hnopair : ¬ ∃ cd ∈ cds, cd.service_id = s ∧ cd.date = d := by
      rintro ⟨cd, hcd, h1, h2⟩
      have : cd ∈ cdMatches cds d s := (hpairM cd).mp ⟨hcd, h1, h2⟩
      rw [hME] at this
      cases this
    have hnoadd : ¬ ∃ cd ∈ cds, cd.service_id = s ∧ cd.date = d ∧ cd.exception_type = "1" := by
      rintro ⟨cd, hcd, h1, h2, _⟩
      exact hnopair ⟨cd, hcd, h1, h2⟩
    constructor
    · rw [serviceHappened_mem_iff, hME]
      constructor
      · rintro (⟨p, hp, hpd, hps, hsub⟩ | ⟨_, cd, hcd, _⟩)
        · rcases hsub with ⟨_, hv⟩ | ⟨cd, hcd, _⟩
          · have := (patternService_mem_iff cal d s "1").mp ⟨p, hp, hpd, hps, hv⟩
            exact Or.inl ⟨this.2, hnopair⟩
          · cases hcd
        · cases hcd
      · rintro (⟨hP, _⟩ | hadd)
        · rcases (patternService_mem_iff cal d s "1").mpr ⟨hd, hP⟩ with ⟨p, hp, hpd, hps, hv⟩
          exact Or.inl ⟨p, hp, hpd, hps, Or.inl ⟨rfl, hv⟩⟩
        · exact absurd hadd hnoadd
    · rintro ⟨cd, hcd, h1, h2, _⟩
      exact absurd ⟨cd, hcd, h1, h2⟩ hnopair
  · -- exactly one exception row e for the pair
    have hes : es = [] := by
      rw [hME, List.length_cons] at hlen
      exact List.length_eq_zero.mp (by omega)
    subst hes
    have heM : e ∈ cdMatches cds d s := by
      rw [hME]
      exact List.mem_singleton.mpr rfl
    have he := (mem_cdMatches cds d s e).mp heM
    have huniq : ∀ cd ∈ cdMatches cds d s, cd = e := by
      intro cd hcd
      rw [hME] at hcd
      exact List.mem_singleton.mp hcd
    have hpair : ∃ cd ∈ cds, cd.service_id = s ∧ cd.date = d := ⟨e, he.1, he.2.2, he.2.1⟩
    by_cases hv : e.exception_type = "1"
    · have hLHS : serviceRunsOn cal cds d s = true := by
        rw [serviceHappened_mem_iff]
        by_cases hQ : ∃ p ∈ patternService cal, p.raw_date = d ∧ p.service_id = s
        · rcases hQ with ⟨p, hp, hpd, hps⟩
          exact Or.inl ⟨p, hp, hpd, hps, Or.inr ⟨e, heM, hv⟩⟩
        · exact Or.inr ⟨hQ, e, heM, hv⟩
      constructor
      · rw [hLHS]
        exact iff_of_true rfl (Or.inr ⟨e, he.1, he.2.2, he.2.1, hv⟩)
      · rintro ⟨cd, hcd, h1, h2, h3⟩
        have : cd = e := huniq cd ((hpairM cd).mp ⟨hcd, h1, h2⟩)
        rw [this, hv] at h3
        exact absurd h3 (by decide)
    · have hLHS : ¬ serviceRunsOn cal cds d s = true := by
        rw [serviceHappened_mem_iff]
        rintro (⟨p, hp, hpd, hps, hsub⟩ | ⟨_, cd, hcd, hcdv⟩)
        · rcases hsub with ⟨hnil, _⟩ | ⟨cd, hcd, hcdv⟩
          · rw [hME] at hnil
            cases hnil
          · exact hv (huniq cd hcd ▸ hcdv)
        · exact hv (huniq cd hcd ▸ hcdv)
      have hRHS : ¬ (((∃ c ∈ cal, c.service_id = s ∧ (dayofweek d, "1") ∈ dayFlags c ∧
            c.start_date ≤ d ∧ d ≤ c.end_date) ∧
          ¬ ∃ cd ∈ cds, cd.service_id = s ∧ cd.date = d) ∨
          (∃ cd ∈ cds, cd.service_id = s ∧ cd.date = d ∧ cd.exception_type = "1")) := by
        rintro (⟨_, hnp⟩ | ⟨cd, hcd, h1, h2, h3⟩)
        · exact hnp hpair
        · exact hv (huniq cd ((hpairM cd).mp ⟨hcd, h1, h2⟩) ▸ h3)
      exact ⟨iff_of_false hLHS hRHS, fun _ => Bool.eq_false_iff.mpr hLHS⟩

theorem calendar_resolver_active_iff_witness :
    (([(⟨"S", daysFromCivil 2022 6 6, "2"⟩ : CalendarDateRow)].map fun cd =>
        (cd.service_id, cd.date)).Nodup ∧
      daysFromCivil 2022 6 6 ∈ calendarDateRange
        [⟨"S", "1", "0", "0", "0", "0", "0", "0", daysFromCivil 2022 6 5,
          daysFromCivil 2022 6 8⟩] ∧
      (∃ cd ∈ [(⟨"S", daysFromCivil 2022 6 6, "2"⟩ : CalendarDateRow)],
        cd.service_id = "S" ∧ cd.date = daysFromCivil 2022 6 6 ∧ cd.exception_type = "2")) ∧
    serviceRunsOn
      [⟨"S", "1", "0", "0", "0", "0", "0", "0", daysFromCivil 2022 6 5,
        daysFromCivil 2022 6 8⟩]
      [⟨"S", daysFromCivil 2022 6 6, "2"⟩] (daysFromCivil 2022 6 6) "S" = false :=
  ⟨⟨by decide, by decide, by decide⟩,
    (calendar_resolver_active_iff
      [⟨"S", "1", "0", "0", "0", "0", "0", "0", daysFromCivil 2022 6 5,
        daysFromCivil 2022 6 8⟩]
      [⟨"S", daysFromCivil 2022 6 6, "2"⟩] (by decide) (daysFromCivil 2022 6 6) "S"
      (by decide)).2 (by decide)⟩

theorem calendarDateRange_nodup (cal : List CalendarRow) : (calendarDateRange cal).Nodup := by
  cases cal with
  | nil => simp [calendarDateRange]
  | cons c cs =>
    show (List.range' _ _).Nodup
    exact List.nodup_range' _ _

theorem sum_map_flatMap {α β : Type} (l : List α) (g : α → List β) (F : β → Nat) :
    ((l.flatMap g).map F).sum = (l.map fun a => ((g a).map F).sum).sum := by
  induction l with
  | nil => rfl
  | cons a t ih => simp [List.flatMap_cons, List.map_append, List.sum_append, ih]

/-- With no duplicate `service_id` in `calendar`, at most one filtered
pattern row carries a given (date, service) key. -/
theorem patternService_key_countP_le_one (cal : List CalendarRow)
    (hcal : (cal.map (·.service_id)).Nodup) (d : Nat) (s : String) :
    ((patternService cal).countP fun p => p.raw_date == d && p.service_id == s) ≤ 1 := by
  rw [patternService, List.countP_filter, crossMelt, List.countP_flatMap]
  refine sum_le_one_of_key (calendarDateRange cal) (fun x => x) d _
    (by simpa using calendarDateRange_nodup cal) ?_ ?_
  · intro d' _ hne
    refine List.countP_eq_zero.mpr ?_
    intro r hr
    rcases List.mem_flatMap.mp hr with ⟨c, _, hr2⟩
    rcases List.mem_map.mp hr2 with ⟨wv, _, rfl⟩
    simp [hne]
  · intro d' _
    simp only [Function.comp]
    rw [List.countP_flatMap]
    refine sum_le_one_of_key cal (·.service_id) s _ hcal ?_ ?_
    · intro c _ hcs
      refine List.countP_eq_zero.mpr ?_
      intro r hr
      rcases List.mem_map.mp hr with ⟨wv, _, rfl⟩
      simp [hcs]
    · intro c _
      simp only [Function.comp]
      rw [List.countP_map]
      have himp : ∀ wv ∈ dayFlags c,
          ((fun p : PatternRow => p.raw_date == d && p.service_id == s &&
              (dayofweek p.raw_date == p.cal_daynum && decide (p.start_date ≤ p.raw_date) &&
                decide (p.raw_date ≤ p.end_date))) ∘ fun wv : Nat × String =>
            (⟨d', c.service_id, c.start_date, c.end_date, wv.1, wv.2⟩ : PatternRow)) wv = true →
          (wv.1 == dayofweek d') = true := by
        intro wv _ hwv
        simp only [Function.comp, Bool.and_eq_true, beq_iff_eq, decide_eq_true_eq] at hwv
        simp [hwv.2.1.1]
      exact Nat.le_trans (countP_imp_le _ _ _ himp) (dayFlags_countP_le_one c (dayofweek d'))

/-- Under GTFS well-formedness (unique `service_id` in calendar, unique
(service, date) pair in calendar_dates), at most one `service_happened`
row carries a given (date, service) key. -/
theorem serviceHappened_key_countP_le_one (cal : List CalendarRow) (cds : List CalendarDateRow)
    (hcal : (cal.map (·.service_id)).Nodup)
    (hcds : (cds.map fun cd => (cd.service_id, cd.date)).Nodup) (d : Nat) (s : String) :
    ((serviceHappened cal cds).countP fun r => r.raw_date == some d && r.service_id == s)
      ≤ 1 := by
  rw [serviceHappened, List.countP_filter, List.countP_map, outerMergeService,
    List.countP_append]
  set q : MergedRow → Bool :=
    (fun a => a.raw_date == some d && a.service_id == s && serviceHappenedFlag a) ∘
      fillRawDate with hq
  by_cases hQ : ∃ p ∈ patternService cal, p.raw_date = d ∧ p.service_id = s
  · have hB : (List.countP q ((cds.filter fun cd =>
        !(patternService cal).any fun p =>
          p.raw_date == cd.date && p.service_id == cd.service_id).map fun cd =>
        (⟨none, cd.service_id, none, some cd.exception_type, some cd.date⟩ : MergedRow))) = 0 := by
      rw [List.countP_map]
      refine List.countP_eq_zero.mpr ?_
      intro cd hcd
      rw [List.mem_filter] at hcd
      obtain ⟨_, hunm⟩ := hcd
      simp only [Bool.not_eq_eq_eq_not, Bool.not_true] at hunm
      rw [List.any_eq_false] at hunm
      rcases hQ with ⟨p, hp, hpd, hps⟩
      intro hcontra
      simp only [hq, Function.comp, fillRawDate, option_none_orElse, Bool.and_eq_true,
        beq_iff_eq, Option.some.injEq] at hcontra
      obtain ⟨⟨hcd1, hcd2⟩, _⟩ := hcontra
      exact absurd (by simp [hpd, hps, hcd1, hcd2]) (hunm p hp)
    rw [hB, Nat.add_zero, List.countP_flatMap]
    refine Nat.le_trans (sum_le_countP _ (fun p => p.raw_date == d && p.service_id == s) _
      ?_ ?_) (patternService_key_countP_le_one cal hcal d s)
    · intro p _ hP
      refine List.countP_eq_zero.mpr ?_
      intro m hm
      have hP' : ¬ (p.raw_date = d ∧ p.service_id = s) := by
        intro hx
        rw [Bool.eq_false_iff] at hP
        exact hP (by simp [hx.1, hx.2])
      simp only [] at hm
      by_cases hE : (cdMatches cds p.raw_date p.service_id).isEmpty
      · rw [if_pos hE, List.mem_singleton] at hm
        subst hm
        intro hcontra
        simp only [hq, Function.comp, fillRawDate, option_some_orElse, Bool.and_eq_true,
          beq_iff_eq, Option.some.injEq] at hcontra
        exact hP' ⟨hcontra.1.1, hcontra.1.2⟩
      · rw [if_neg hE] at hm
        rcases List.mem_map.mp hm with ⟨cd, _, rfl⟩
        intro hcontra
        simp only [hq, Function.comp, fillRawDate, option_some_orElse, Bool.and_eq_true,
          beq_iff_eq, Option.some.injEq] at hcontra
        exact hP' ⟨hcontra.1.1, hcontra.1.2⟩
    · intro p _
      refine Nat.le_trans (List.countP_le_length _) ?_
      simp only []
      by_cases hE : (cdMatches cds p.raw_date p.service_id).isEmpty
      · rw [if_pos hE]
        exact Nat.le_refl 1
      · rw [if_neg hE, List.length_map]
        exact cdMatches_length_le_one cds hcds p.raw_date p.service_id
  · have hA : (List.countP q ((patternService cal).flatMap fun p =>
        let ms := cdMatches cds p.raw_date p.service_id
        if ms.isEmpty then
          [(⟨some p.raw_date, p.service_id, some p.cal_val, none, none⟩ : MergedRow)]
        else ms.map fun cd =>
          (⟨some p.raw_date, p.service_id, some p.cal_val, some cd.exception_type,
            some cd.date⟩ : MergedRow))) = 0 := by
      refine List.countP_eq_zero.mpr ?_
      intro m hm
      rcases List.mem_flatMap.mp hm with ⟨p, hp, hmm⟩
      simp only [] at hmm
      by_cases hE : (cdMatches cds p.raw_date p.service_id).isEmpty
      · rw [if_pos hE, List.mem_singleton] at hmm
        subst hmm
        intro hcontra
        simp only [hq, Function.comp, fillRawDate, option_some_orElse, Bool.and_eq_true,
          beq_iff_eq, Option.some.injEq] at hcontra
        exact hQ ⟨p, hp, hcontra.1.1, hcontra.1.2⟩
      · rw [if_neg hE] at hmm
        rcases List.mem_map.mp hmm with ⟨cd, _, rfl⟩
        intro hcontra
        simp only [hq, Function.comp, fillRawDate, option_some_orElse, Bool.and_eq_true,
          beq_iff_eq, Option.some.injEq] at hcontra
        exact hQ ⟨p, hp, hcontra.1.1, hcontra.1.2⟩
    rw [hA, Nat.zero_add, List.countP_map]
    refine Nat.le_trans (Nat.le_trans (Nat.le_of_eq (List.countP_filter _ _ _))
      (countP_imp_le _ (fun cd => cd.date == d && cd.service_id == s) _ ?_)) ?_
    · intro cd _ hcd
      simp only [hq, Function.comp, fillRawDate, option_none_orElse, Bool.and_eq_true,
        beq_iff_eq, Option.some.injEq] at hcd
      simp [hcd.1.1.1, hcd.1.1.2]
    · have h1 : (cdMatches cds d s).length ≤ 1 := cdMatches_length_le_one cds hcds d s
      rw [cdMatches] at h1
      rw [List.countP_eq_length_filter]
      exact h1

/-- The `service_happened` count of a (date, service) key is exactly the
indicator of the service being resolved active on that date. -/
theorem serviceHappened_key_countP_eq (cal : List CalendarRow) (cds : List CalendarDateRow)
    (hcal : (cal.map (·.service_id)).Nodup)
    (hcds : (cds.map fun cd => (cd.service_id, cd.date)).Nodup) (d : Nat) (s : String) :
    ((serviceHappened cal cds).countP fun r => r.raw_date == some d && r.service_id == s) =
      if serviceRunsOn cal cds d s = true then 1 else 0 := by
  have hle := serviceHappened_key_countP_le_one cal cds hcal hcds d s
  by_cases hrun : serviceRunsOn cal cds d s = true
  · rw [if_pos hrun]
    rw [serviceRunsOn, List.any_eq_true] at hrun
    have hpos := List.countP_pos_iff.mpr hrun
    omega
  · rw [if_neg hrun]
    refine List.countP_eq_zero.mpr ?_
    intro r hr hcontra
    rw [serviceRunsOn, List.any_eq_true] at hrun
    exact hrun ⟨r, hr, hcontra⟩

theorem mem_tripStopHours (st : List StopTimeRow) (tid : String) (hr : Nat) :
    (tid, hr) ∈ tripStopHours st ↔ ∃ r ∈ st, r.trip_id = tid ∧ r.arrival_hour = hr := by
  rw [tripStopHours, List.mem_dedup, List.mem_map]
  constructor
  · rintro ⟨r, hrm, he⟩
    exact ⟨r, hrm, congrArg Prod.fst he, congrArg Prod.snd he⟩
  · rintro ⟨r, hrm, h1, h2⟩
    exact ⟨r, hrm, by rw [h1, h2]⟩

theorem stAny_iff_mem (st : List StopTimeRow) (tid : String) (hr : Nat) :
    (st.any fun r => r.trip_id == tid && r.arrival_hour == hr) = true ↔
      (tid, hr) ∈ tripStopHours st := by
  rw [List.any_eq_true, mem_tripStopHours]
  constructor
  · rintro ⟨r, hrm, hb⟩
    simp only [Bool.and_eq_true, beq_iff_eq] at hb
    exact ⟨r, hrm, hb.1, hb.2⟩
  · rintro ⟨r, hrm, h1, h2⟩
    exact ⟨r, hrm, by simp [h1, h2]⟩

/-- The (date, route, hour) cell of the scheduled-trip summary counts
exactly the trips of the route whose resolved service is active on the date
and that stop at that hour. -/
theorem makeTripSummary_countP (cal : List CalendarRow) (cds : List CalendarDateRow)
    (trips : List TripRow) (st : List StopTimeRow)
    (hcal : (cal.map (·.service_id)).Nodup)
    (hcds : (cds.map fun cd => (cd.service_id, cd.date)).Nodup)
    (d : Nat) (route : String) (h : Nat) :
    scheduledTripCount cal cds trips st d route h =
      trips.countP fun t => t.route_id == route &&
        serviceRunsOn cal cds d t.service_id &&
        (st.any fun r => r.trip_id == t.trip_id && r.arrival_hour == h) := by
  have hF : ∀ td : TripDateRow,
      (List.countP (fun r : TripSummaryRow =>
          r.raw_date == some d && r.trip.route_id == route && r.arrival_hour == some h)
        (if ((tripStopHours st).filter fun p => p.1 == td.trip.trip_id).isEmpty
         then [⟨td.trip, td.raw_date, none⟩]
         else ((tripStopHours st).filter fun p => p.1 == td.trip.trip_id).map
           fun p => ⟨td.trip, td.raw_date, some p.2⟩)) =
      if td.raw_date == some d && td.trip.route_id == route &&
          decide ((td.trip.trip_id, h) ∈ tripStopHours st) then 1 else 0 := by
    intro td
    by_cases hE : ((tripStopHours st).filter fun p => p.1 == td.trip.trip_id).isEmpty
    · rw [if_pos hE]
      have hnm : ¬ (td.trip.trip_id, h) ∈ tripStopHours st := by
        intro hmem
        have hmem2 : ((td.trip.trip_id, h)) ∈
            (tripStopHours st).filter fun p => p.1 == td.trip.trip_id := by
          rw [List.mem_filter]
          exact ⟨hmem, by simp⟩
        rw [List.isEmpty_iff.mp hE] at hmem2
        cases hmem2
      simp [hnm]
    · rw [if_neg hE, List.countP_map]
      by_cases hRT : (td.raw_date == some d && td.trip.route_id == route) = true
      · simp only [Bool.and_eq_true, beq_iff_eq] at hRT
        have hc1 : (List.countP ((fun r : TripSummaryRow =>
            r.raw_date == some d && r.trip.route_id == route && r.arrival_hour == some h) ∘
            fun p : String × Nat => (⟨td.trip, td.raw_date, some p.2⟩ : TripSummaryRow))
            ((tripStopHours st).filter fun p => p.1 == td.trip.trip_id)) =
            List.countP (fun p : String × Nat => p.1 == td.trip.trip_id && p.2 == h)
              (tripStopHours st) := by
          rw [List.countP_filter]
          refine List.countP_congr ?_
          intro p _
          simp [Function.comp, hRT.1, hRT.2, Bool.and_comm]
        rw [hc1, countP_pair_eq_of_nodup (tripStopHours st) (List.nodup_dedup _)
          td.trip.trip_id h]
        by_cases hmem : (td.trip.trip_id, h) ∈ tripStopHours st
        · rw [if_pos hmem, if_pos (by simp [hRT.1, hRT.2, hmem])]
        · rw [if_neg hmem, if_neg (by simp [hmem])]
      · have hz : (List.countP ((fun r : TripSummaryRow =>
            r.raw_date == some d && r.trip.route_id == route && r.arrival_hour == some h) ∘
            fun p : String × Nat => (⟨td.trip, td.raw_date, some p.2⟩ : TripSummaryRow))
            ((tripStopHours st).filter fun p => p.1 == td.trip.trip_id)) = 0 := by
          refine List.countP_eq_zero.mpr ?_
          intro p _
          simp only [Function.comp, Bool.and_eq_true, beq_iff_eq, not_and]
          intro h1 _
          exact hRT (by simp [h1.1, h1.2])
        rw [hz, if_neg]
        intro hx
        simp only [Bool.and_eq_true] at hx
        exact hRT (by simp [hx.1.1, hx.1.2])
  rw [scheduledTripCount, makeTripSummary, List.countP_flatMap]
  simp only [Function.comp_def]
  rw [List.map_congr_left fun td _ => hF td]
  rw [tripsHappened, sum_map_flatMap]
  rw [countP_eq_sum_map]
  refine congrArg List.sum (List.map_congr_left ?_)
  intro t _
  simp only []
  by_cases hE : ((serviceHappened cal cds).filter fun r => r.service_id == t.service_id).isEmpty
  · rw [if_pos hE]
    have hrun : serviceRunsOn cal cds d t.service_id = false := by
      refine Bool.eq_false_iff.mpr ?_
      intro hcontra
      rw [serviceRunsOn, List.any_eq_true] at hcontra
      rcases hcontra with ⟨r, hrm, hkey⟩
      simp only [Bool.and_eq_true, beq_iff_eq] at hkey
      have : r ∈ (serviceHappened cal cds).filter fun r => r.service_id == t.service_id := by
        rw [List.mem_filter]
        exact ⟨hrm, by simp [hkey.2]⟩
      rw [List.isEmpty_iff.mp hE] at this
      cases this
    simp [hrun]
  · rw [if_neg hE, List.map_map]
    by_cases hRM : t.route_id = route ∧ (t.trip_id, h) ∈ tripStopHours st
    · have hmap : ∀ r ∈ (serviceHappened cal cds).filter fun x => x.service_id == t.service_id,
          ((fun td : TripDateRow => if td.raw_date == some d && td.trip.route_id == route &&
            decide ((td.trip.trip_id, h) ∈ tripStopHours st) then 1 else 0) ∘
            fun r : MergedRow => (⟨t, r.raw_date⟩ : TripDateRow)) r =
          if (r.raw_date == some d) = true then 1 else 0 := by
        intro r _
        simp [Function.comp, hRM.1, hRM.2]
      rw [List.map_congr_left hmap, ← countP_eq_sum_map, List.countP_filter,
        serviceHappened_key_countP_eq cal cds hcal hcds d t.service_id]
      have hany : (st.any fun r => r.trip_id == t.trip_id && r.arrival_hour == h) = true :=
        (stAny_iff_mem st t.trip_id h).mpr hRM.2
      by_cases hrun : serviceRunsOn cal cds d t.service_id = true
      · rw [if_pos hrun, if_pos (by simp [hRM.1, hrun, hany])]
      · rw [if_neg hrun, if_neg]
        intro hx
        simp only [Bool.and_eq_true] at hx
        exact hrun hx.1.2
    · have hz : ∀ x ∈ (serviceHappened cal cds).filter fun r => r.service_id == t.service_id,
          ((fun td : TripDateRow => if td.raw_date == some d && td.trip.route_id == route &&
            decide ((td.trip.trip_id, h) ∈ tripStopHours st) then 1 else 0) ∘
            fun r : MergedRow => (⟨t, r.raw_date⟩ : TripDateRow)) x = 0 := by
        intro r _
        simp only [Function.comp]
        rw [if_neg]
        intro hx
        simp only [Bool.and_eq_true, beq_iff_eq, decide_eq_true_eq] at hx
        exact hRM ⟨hx.1.2, hx.2⟩
      rw [List.map_congr_left hz]
      have hs0 : (((serviceHappened cal cds).filter fun r =>
          r.service_id == t.service_id).map fun _ => 0).sum = 0 := by
        refine List.sum_eq_zero ?_
        intro x hx
        rcases List.mem_map.mp hx with ⟨_, _, rfl⟩
        rfl
      rw [hs0, if_neg]
      intro hx
      simp only [Bool.and_eq_true, beq_iff_eq] at hx
      exact hRM ⟨hx.1.1, (stAny_iff_mem st t.trip_id h).mp hx.2⟩

theorem card_hours_eq_filter_length (st : List StopTimeRow) (H : Finset Nat)
    (hcov : ∀ r ∈ st, r.arrival_hour ∈ H) (tid : String) :
    (H.filter fun hr => (tid, hr) ∈ tripStopHours st).card =
      ((tripStopHours st).filter fun p => p.1 == tid).length := by
  set L := (tripStopHours st).filter fun p => p.1 == tid with hL
  have hLnd : L.Nodup := (List.nodup_dedup _).filter _
  have hmapnd : (L.map (·.2)).Nodup := by
    refine List.Nodup.map_on ?_ hLnd
    intro x hx y hy hxy
    rw [hL, List.mem_filter] at hx hy
    have hx1 : x.1 = tid := by simpa using hx.2
    have hy1 : y.1 = tid := by simpa using hy.2
    exact Prod.ext (hx1.trans hy1.symm) hxy
  have hset : (L.map (·.2)).toFinset = H.filter fun hr => (tid, hr) ∈ tripStopHours st := by
    ext hr
    rw [List.mem_toFinset, Finset.mem_filter]
    constructor
    · intro hmem
      rcases List.mem_map.mp hmem with ⟨p, hp, rfl⟩
      rw [hL, List.mem_filter] at hp
      have hp1 : p.1 = tid := by simpa using hp.2
      have hpm : (tid, p.2) ∈ tripStopHours st := by
        rw [← hp1]
        exact hp.1
      refine ⟨?_, hpm⟩
      rcases (mem_tripStopHours st tid p.2).mp hpm with ⟨r, hrm, _, h2⟩
      rw [← h2]
      exact hcov r hrm
    · rintro ⟨hH, hmem⟩
      refine List.mem_map.mpr ⟨(tid, hr), ?_, rfl⟩
      rw [hL, List.mem_filter]
      exact ⟨hmem, by simp⟩
  rw [← hset, List.toFinset_card_of_nodup hmapnd, List.length_map]

/-- C2: under GTFS well-formedness (unique service ids in calendar, unique
(service, date) pairs in calendar_dates, unique trip ids), every
(date, route, hour) cell of the scheduled-trip-count table equals the
number of distinct trip_ids of that route whose resolved service is active
on the date and that have at least one stop_time with that arrival hour —
so a trip with several stops inside one hour counts once for that hour —
and summing the cells over any hour set covering all arrival hours makes
each trip count once per distinct hour it touches. -/
theorem scheduled_trip_count_spec (cal : List CalendarRow) (cds : List CalendarDateRow)
    (trips : List TripRow) (st : List StopTimeRow)
    (hcal : (cal.map (·.service_id)).Nodup)
    (hcds : (cds.map fun cd => (cd.service_id, cd.date)).Nodup)
    (htr : (trips.map (·.trip_id)).Nodup)
    (d : Nat) (route : String) :
    (∀ h : Nat, scheduledTripCount cal cds trips st d route h =
      ((trips.filter fun t => t.route_id == route &&
          serviceRunsOn cal cds d t.service_id &&
          (st.any fun r => r.trip_id == t.trip_id && r.arrival_hour == h)).map
        (·.trip_id)).dedup.length) ∧
    (∀ H : Finset Nat, (∀ r ∈ st, r.arrival_hour ∈ H) →
      ∑ h ∈ H, scheduledTripCount cal cds trips st d route h =
      (trips.map fun t =>
        if (t.route_id == route && serviceRunsOn cal cds d t.service_id) = true
        then ((tripStopHours st).filter fun p => p.1 == t.trip_id).length else 0).sum) := by
  constructor
  · intro h
    rw [makeTripSummary_countP cal cds trips st hcal hcds d route h]
    have hnd : ((trips.filter fun t => t.route_id == route &&
        serviceRunsOn cal cds d t.service_id &&
        (st.any fun r => r.trip_id == t.trip_id && r.arrival_hour == h)).map
        (·.trip_id)).Nodup := ((List.filter_sublist _).map _).nodup htr
    rw [List.dedup_eq_self.mpr hnd, List.length_map, ← List.countP_eq_length_filter]
  · intro H hcov
    have h1 : ∀ h : Nat, scheduledTripCount cal cds trips st d route h =
        trips.countP fun t => t.route_id == route &&
          serviceRunsOn cal cds d t.service_id &&
          (st.any fun r => r.trip_id == t.trip_id && r.arrival_hour == h) :=
      fun h => makeTripSummary_countP cal cds trips st hcal hcds d route h
    calc ∑ h ∈ H, scheduledTripCount cal cds trips st d route h
        = ∑ h ∈ H, (trips.map fun t =>
            if (t.route_id == route && serviceRunsOn cal cds d t.service_id &&
              (st.any fun r => r.trip_id == t.trip_id && r.arrival_hour == h)) = true
            then 1 else 0).sum := by
          refine Finset.sum_congr rfl fun h _ => ?_
          rw [h1 h, countP_eq_sum_map]
      _ = (trips.map fun t => ∑ h ∈ H,
            if (t.route_id == route && serviceRunsOn cal cds d t.service_id &&
              (st.any fun r => r.trip_id == t.trip_id && r.arrival_hour == h)) = true
            then 1 else 0).sum := finset_sum_list_sum H trips _
      _ = (trips.map fun t =>
            if (t.route_id == route && serviceRunsOn cal cds d t.service_id) = true
            then ((tripStopHours st).filter fun p => p.1 == t.trip_id).length else 0).sum := by
          refine congrArg List.sum (List.map_congr_left ?_)
          intro t _
          by_cases hRR : (t.route_id == route && serviceRunsOn cal cds d t.service_id) = true
          · rw [if_pos hRR]
            have hcong : ∀ h ∈ H,
                (if (t.route_id == route && serviceRunsOn cal cds d t.service_id &&
                  (st.any fun r => r.trip_id == t.trip_id && r.arrival_hour == h)) = true
                then 1 else 0) =
                if (t.trip_id, h) ∈ tripStopHours st then 1 else 0 := by
              intro h _
              by_cases hm : (t.trip_id, h) ∈ tripStopHours st
              · rw [if_pos hm, if_pos]
                rw [Bool.and_eq_true]
                exact ⟨hRR, (stAny_iff_mem st t.trip_id h).mpr hm⟩
              · rw [if_neg hm, if_neg]
                intro hx
                rw [Bool.and_eq_true] at hx
                exact hm ((stAny_iff_mem st t.trip_id h).mp hx.2)
            rw [Finset.sum_congr rfl hcong, Finset.sum_boole, Nat.cast_id]
            exact card_hours_eq_filter_length st H hcov t.trip_id
          · rw [if_neg hRR]
            refine Finset.sum_eq_zero ?_
            intro h _
            rw [if_neg]
            intro hx
            rw [Bool.and_eq_true] at hx
            exact hRR hx.1

theorem scheduled_trip_count_spec_witness :
    (([(⟨"S", "1", "0", "0", "0", "0", "0", "0", daysFromCivil 2022 6 5,
          daysFromCivil 2022 6 8⟩ : CalendarRow)].map (·.service_id)).Nodup ∧
      (([] : List CalendarDateRow).map fun cd => (cd.service_id, cd.date)).Nodup ∧
      (([(⟨"22", "S", "t1", "0"⟩ : TripRow), ⟨"22", "S", "t2", "0"⟩].map (·.trip_id)).Nodup) ∧
      (∀ r ∈ [(⟨"t1", 8, 8⟩ : StopTimeRow), ⟨"t1", 8, 8⟩, ⟨"t1", 9, 9⟩, ⟨"t2", 8, 8⟩],
        r.arrival_hour ∈ ({8, 9} : Finset Nat))) ∧
    scheduledTripCount
      [⟨"S", "1", "0", "0", "0", "0", "0", "0", daysFromCivil 2022 6 5, daysFromCivil 2022 6 8⟩]
      [] [⟨"22", "S", "t1", "0"⟩, ⟨"22", "S", "t2", "0"⟩]
      [⟨"t1", 8, 8⟩, ⟨"t1", 8, 8⟩, ⟨"t1", 9, 9⟩, ⟨"t2", 8, 8⟩]
      (daysFromCivil 2022 6 6) "22" 8 = 2 ∧
    ∑ h ∈ ({8, 9} : Finset Nat), scheduledTripCount
      [⟨"S", "1", "0", "0", "0", "0", "0", "0", daysFromCivil 2022 6 5, daysFromCivil 2022 6 8⟩]
      [] [⟨"22", "S", "t1", "0"⟩, ⟨"22", "S", "t2", "0"⟩]
      [⟨"t1", 8, 8⟩, ⟨"t1", 8, 8⟩, ⟨"t1", 9, 9⟩, ⟨"t2", 8, 8⟩]
      (daysFromCivil 2022 6 6) "22" h = 3 :=
  ⟨⟨by decide, by decide, by decide, by decide⟩,
    ((scheduled_trip_count_spec
      [⟨"S", "1", "0", "0", "0", "0", "0", "0", daysFromCivil 2022 6 5, daysFromCivil 2022 6 8⟩]
      [] [⟨"22", "S", "t1", "0"⟩, ⟨"22", "S", "t2", "0"⟩]
      [⟨"t1", 8, 8⟩, ⟨"t1", 8, 8⟩, ⟨"t1", 9, 9⟩, ⟨"t2", 8, 8⟩]
      (by decide) (by decide) (by decide) (daysFromCivil 2022 6 6) "22").1 8).trans (by decide),
    ((scheduled_trip_count_spec
      [⟨"S", "1", "0", "0", "0", "0", "0", "0", daysFromCivil 2022 6 5, daysFromCivil 2022 6 8⟩]
      [] [⟨"22", "S", "t1", "0"⟩, ⟨"22", "S", "t2", "0"⟩]
      [⟨"t1", 8, 8⟩, ⟨"t1", 8, 8⟩, ⟨"t1", 9, 9⟩, ⟨"t2", 8, 8⟩]
      (by decide) (by decide) (by decide) (daysFromCivil 2022 6 6) "22").2
      ({8, 9} : Finset Nat) (by decide)).trans (by decide)⟩
